import Mathlib

/-!
# The render colour-scheme registry of `colormap.cc`

A shallow embedding of `src/colormap.cc` (classes `RenderColorScheme` and
`ColorMap`) together with the properties of its specification.

Conventions of the embedding

* a `std::string` is a Lean `String`, one `Char` per `char`;
* an exception that a C++ call may throw is an `Except` result;
* a pointer that may be `NULL` is an `Option`, dereferencing `none` gives `none`;
* the objects of the file system and of the property-tree library, which the
  file only reaches through library calls, are represented by the results of
  those calls;
* the function-local static of `ColorMap::inst` is an explicit state.
-/

namespace ColorMapModel

/-! ## Colours and colour roles -/

/-- Modelled from the spec: the enumeration `RenderColor` is declared in
`colormap.h`. It has the ten roles below, in the order in which the
constructors of `RenderColorScheme` name them. A C++ enumeration can also hold
a value that is none of its enumerators; `OUT_OF_RANGE n` stands for such a
value. -/
inductive RenderColor where
  | BACKGROUND_COLOR
  | OPENCSG_FACE_FRONT_COLOR
  | OPENCSG_FACE_BACK_COLOR
  | CGAL_FACE_FRONT_COLOR
  | CGAL_FACE_2D_COLOR
  | CGAL_FACE_BACK_COLOR
  | CGAL_EDGE_FRONT_COLOR
  | CGAL_EDGE_BACK_COLOR
  | CGAL_EDGE_2D_COLOR
  | CROSSHAIR_COLOR
  | OUT_OF_RANGE (n : Nat)
  deriving DecidableEq, Repr

open RenderColor

/-- Modelled from the spec: the class `Color4f` is declared in `linalg.h`. A
colour has four channels, each given as an intensity 0..255; the constructor
`Color4f(r, g, b, a = 255)` takes `int` arguments. -/
structure Color4f where
  r : Int
  g : Int
  b : Int
  a : Int
  deriving DecidableEq, Repr

/-- The three-argument call `Color4f(r, g, b)`: alpha takes its default 255. -/
def Color4f.rgb (r g b : Int) : Color4f := ⟨r, g, b, 255⟩

/-- The type `ColorScheme` is `std::map<RenderColor, Color4f>`: a finite map,
here the list of its key/value pairs. -/
abbrev ColorScheme := List (RenderColor × Color4f)

/-- The call `cs.count(rc)`: 1 if the key is present, 0 otherwise. -/
def ColorScheme.count (cs : ColorScheme) (rc : RenderColor) : Nat :=
  if (cs.lookup rc).isSome then 1 else 0

/-- The call `cs.at(rc)`: the mapped colour; `none` when the key is absent
(where `std::map::at` throws `std::out_of_range`). -/
def ColorScheme.at (cs : ColorScheme) (rc : RenderColor) : Option Color4f :=
  cs.lookup rc

/-- The call `cs.insert(value_type(rc, c))`: `std::map::insert` adds the pair
unless the key is already present, in which case the map is unchanged. -/
def ColorScheme.insert (cs : ColorScheme) (rc : RenderColor) (c : Color4f) : ColorScheme :=
  if (cs.lookup rc).isSome then cs else cs ++ [(rc, c)]

/-! ## Library results -/

/-- The exceptions that reach the `catch (const std::exception &)` of the
scheme constructor. -/
inductive StdException where
  | json_parser_error
  | ptree_bad_path (key : String)
  | ptree_bad_data (key : String)
  | invalid_argument (what : String)
  deriving DecidableEq, Repr

/-- A `boost::property_tree::ptree` as the constructor sees it: the result of
each accessor call made on it. `name` is `pt.get<std::string>("name")`, `index`
is `pt.get<int>("index")`, `show_in_gui` is `pt.get<bool>("show-in-gui")`, and
`colors` is `pt.get_child("colors")`, given by the key and string data of each
of its children in order. -/
structure PTree where
  name : Except StdException String
  index : Except StdException Int
  show_in_gui : Except StdException Bool
  colors : Except StdException (List (String × String))

/-- The default-constructed (empty) tree: every accessor reports a bad path. -/
def PTree.empty : PTree :=
  ⟨.error (.ptree_bad_path "name"), .error (.ptree_bad_path "index"),
   .error (.ptree_bad_path "show-in-gui"), .error (.ptree_bad_path "colors")⟩

/-- The call `colors.get<std::string>(key)` for a key without a dot: the data of
the first child with that key, or `ptree_bad_path`. -/
def getString (colors : List (String × String)) (key : String) : Except StdException String :=
  match colors.lookup key with
  | some v => .ok v
  | none => .error (.ptree_bad_path key)

/-! ## `strtol` in base 16 -/

/-- The C `isspace` in the "C" locale. -/
def isspace (c : Char) : Bool :=
  c == ' ' || c == '\t' || c == '\n' || c == Char.ofNat 11 || c == Char.ofNat 12 || c == '\r'

/-- Value of a hexadecimal digit, `none` for any other character. -/
def hexDigitVal (c : Char) : Option Nat :=
  if '0' ≤ c ∧ c ≤ '9' then some (c.toNat - 48)
  else if 'a' ≤ c ∧ c ≤ 'f' then some (c.toNat - 87)
  else if 'A' ≤ c ∧ c ≤ 'F' then some (c.toNat - 55)
  else none

/-- The digit loop of `strtol`: consume hexadecimal digits, stop at the first
other character. -/
def strtolDigits : Nat → List Char → Nat
  | acc, [] => acc
  | acc, c :: cs =>
    match hexDigitVal c with
    | some d => strtolDigits (acc * 16 + d) cs
    | none => acc

/-- The call `s.c_str()` as C functions read it: the characters before the
first NUL. -/
def c_str (s : List Char) : List Char := s.takeWhile (fun c => c != Char.ofNat 0)

/-- The sign step of `strtol`: an optional `+` or `-`. -/
def strtolSign : List Char → Bool × List Char
  | c :: cs => if c = '-' then (true, cs) else if c = '+' then (false, cs) else (false, c :: cs)
  | [] => (false, [])

/-- The prefix step of `strtol` in base 16: an optional `0x` or `0X`, taken
only when a hexadecimal digit follows it. -/
def strtolPrefix16 : List Char → List Char
  | c0 :: x :: h :: cs =>
    if c0 = '0' ∧ (x = 'x' ∨ x = 'X') ∧ (hexDigitVal h).isSome then h :: cs else c0 :: x :: h :: cs
  | cs => cs

/-- The C library call `strtol(nptr, &endptr, 16)`: skip white space, read an
optional sign and an optional `0x`, then the longest run of hexadecimal digits;
no digits give 0. The range clamp of `long` is not reached by the inputs of at
most six characters that `addColor` passes. -/
def strtol16 (nptr : List Char) : Int :=
  let s := strtolSign ((c_str nptr).dropWhile isspace)
  let v : Int := (strtolDigits 0 (strtolPrefix16 s.2) : Nat)
  if s.1 then -v else v

/-- Conversion of a `long` to `unsigned int`: reduction modulo 2^32. -/
def toUnsignedInt (v : Int) : Nat := (v % 4294967296).toNat

/-! ## `RenderColorScheme` -/

/-- The name of the built-in scheme. -/
def DEFAULT_COLOR_SCHEME_NAME : String := "Cornfield"

/-- The members of a `RenderColorScheme` object. -/
structure RenderColorScheme where
  path : String
  pt : PTree
  _name : String
  _index : Int
  _show_in_gui : Bool
  _color_scheme : ColorScheme

namespace RenderColorScheme

/-- The constructor `RenderColorScheme()`: the built-in scheme. -/
def builtIn : RenderColorScheme :=
  let cs : ColorScheme := []
  let cs := cs.insert BACKGROUND_COLOR (Color4f.rgb 0xff 0xff 0xe5)
  let cs := cs.insert OPENCSG_FACE_FRONT_COLOR (Color4f.rgb 0xf9 0xd7 0x2c)
  let cs := cs.insert OPENCSG_FACE_BACK_COLOR (Color4f.rgb 0x9d 0xcb 0x51)
  let cs := cs.insert CGAL_FACE_FRONT_COLOR (Color4f.rgb 0xf9 0xd7 0x2c)
  let cs := cs.insert CGAL_FACE_2D_COLOR (Color4f.rgb 0x00 0xbf 0x99)
  let cs := cs.insert CGAL_FACE_BACK_COLOR (Color4f.rgb 0x9d 0xcb 0x51)
  let cs := cs.insert CGAL_EDGE_FRONT_COLOR (Color4f.rgb 0xff 0xec 0x5e)
  let cs := cs.insert CGAL_EDGE_BACK_COLOR (Color4f.rgb 0xab 0xd8 0x56)
  let cs := cs.insert CGAL_EDGE_2D_COLOR (Color4f.rgb 0xff 0x00 0x00)
  let cs := cs.insert CROSSHAIR_COLOR (Color4f.rgb 0x80 0x00 0x00)
  ⟨"", PTree.empty, DEFAULT_COLOR_SCHEME_NAME, 1000, true, cs⟩

/-- The method `valid()`: the name is not empty. -/
def valid (self : RenderColorScheme) : Bool := !self._name.isEmpty

/-- The accessor `name()`. -/
def name (self : RenderColorScheme) : String := self._name

/-- The accessor `index()`. -/
def index (self : RenderColorScheme) : Int := self._index

/-- The accessor `showInGui()`. -/
def showInGui (self : RenderColorScheme) : Bool := self._show_in_gui

/-- The accessor `colorScheme()`. -/
def colorScheme (self : RenderColorScheme) : ColorScheme := self._color_scheme

/-- The text of the `invalid_argument` that `addColor` throws. -/
def invalidColorMessage (key color : String) : String :=
  "invalid color value for key '" ++ key ++ "': '" ++ color ++ "'"

/-- The method `addColor(colorKey, key)`: either the object with the colour
inserted, or the exception thrown (the object is then untouched). -/
def addColor (self : RenderColorScheme) (colorKey : RenderColor) (key : String) :
    Except StdException RenderColorScheme :=
  match self.pt.colors with
  | .error e => .error e
  | .ok colors =>
    match getString colors key with
    | .error e => .error e
    | .ok color =>
      if color.length = 7 ∧ color.data.head? = some '#' then
        let val : Nat := toUnsignedInt (strtol16 (color.data.drop 1))
        let r : Int := ((val >>> 16) &&& 0xff : Nat)
        let g : Int := ((val >>> 8) &&& 0xff : Nat)
        let b : Int := (val &&& 0xff : Nat)
        .ok { self with _color_scheme := self._color_scheme.insert colorKey (Color4f.rgb r g b) }
      else
        .error (.invalid_argument (invalidColorMessage key color))

/-- The ten `addColor` calls of the constructor, in order. -/
def colorKeys : List (RenderColor × String) :=
  [(BACKGROUND_COLOR, "background"),
   (OPENCSG_FACE_FRONT_COLOR, "opencsg-face-front"),
   (OPENCSG_FACE_BACK_COLOR, "opencsg-face-back"),
   (CGAL_FACE_FRONT_COLOR, "cgal-face-front"),
   (CGAL_FACE_2D_COLOR, "cgal-face-2d"),
   (CGAL_FACE_BACK_COLOR, "cgal-face-back"),
   (CGAL_EDGE_FRONT_COLOR, "cgal-edge-front"),
   (CGAL_EDGE_BACK_COLOR, "cgal-edge-back"),
   (CGAL_EDGE_2D_COLOR, "cgal-edge-2d"),
   (CROSSHAIR_COLOR, "crosshair")]

/-- A run of `addColor` calls: the object after the calls that completed, and
the exception that stopped the run, if any. -/
def addColors : List (RenderColor × String) → RenderColorScheme →
    RenderColorScheme × Option StdException
  | [], self => (self, none)
  | (colorKey, key) :: rest, self =>
    match addColor self colorKey key with
    | .error e => (self, some e)
    | .ok self1 => addColors rest self1

/-- The `try` block of `RenderColorScheme(fs::path)`: the object as the block
leaves it and the exception that ended it, if any. `json` is the result of
`read_json` on the file. -/
def tryBlock (json : Except StdException PTree) (self : RenderColorScheme) :
    RenderColorScheme × Option StdException :=
  match json with
  | .error e => (self, some e)
  | .ok tree =>
    let self := { self with pt := tree }
    match self.pt.name with
    | .error e => (self, some e)
    | .ok n =>
      let self := { self with _name := n }
      match self.pt.index with
      | .error e => (self, some e)
      | .ok i =>
        let self := { self with _index := i }
        match self.pt.show_in_gui with
        | .error e => (self, some e)
        | .ok g =>
          let self := { self with _show_in_gui := g }
          addColors colorKeys self

/-- The constructor `RenderColorScheme(fs::path)`: the `try` block, and the
`catch` handler that clears name, index and visibility. The message printed by
the handler is not part of the object. -/
def fromPath (path : String) (json : Except StdException PTree) : RenderColorScheme :=
  let self0 : RenderColorScheme := ⟨path, PTree.empty, "", 0, false, []⟩
  match tryBlock json self0 with
  | (self, none) => self
  | (self, some _) => { self with _name := "", _index := 0, _show_in_gui := false }

end RenderColorScheme

/-! ## The file system -/

/-- One entry met by the `directory_iterator`: its path, whether
`fs::is_regular_file` holds of its status, the string of `path.extension()`,
and what `read_json` does with the file. -/
structure DirEntry where
  path : String
  is_regular_file : Bool
  extension : String
  json : Except StdException PTree

/-- The directory `path / "color-schemes" / "render"` for one root: whether
`fs::exists` and `fs::is_directory` hold of it, and its entries in the order
in which the iterator yields them. -/
structure Directory where
  present : Bool
  is_directory : Bool
  entries : List DirEntry

/-- The two roots given by `PlatformUtils`, each as the scheme directory below
it. -/
structure PlatformUtils where
  resourcesPath : Directory
  userConfigPath : Directory

/-! ## `ColorMap` -/

/-- The type `colorscheme_set_t`: a multimap from `int` to (shared pointers
to) schemes, kept in key order. -/
abbrev colorscheme_set_t := List (Int × RenderColorScheme)

/-- Modelled from the spec: `colorscheme_set_t` is declared in `colormap.h`;
the collection is ordered by index and entries of equal index keep insertion
order. The call `set.insert(value_type(k, v))` puts the pair after every
entry whose key is at most `k`. -/
def colorscheme_set_t.insert (k : Int) (v : RenderColorScheme) :
    colorscheme_set_t → colorscheme_set_t
  | [] => [(k, v)]
  | (k1, v1) :: rest =>
    if k < k1 then (k, v) :: (k1, v1) :: rest
    else (k1, v1) :: colorscheme_set_t.insert k v rest

/-- The members of a `ColorMap` object. -/
structure ColorMap where
  colorSchemeSet : colorscheme_set_t

namespace ColorMap

/-- The method `findColorScheme(name)`: the colour mapping of the first scheme
of the member `colorSchemeSet` with that name, `none` for `NULL`. -/
def findColorScheme (self : ColorMap) (name : String) : Option ColorScheme :=
  match self.colorSchemeSet.find? (fun it => name == it.2.name) with
  | some it => some it.2.colorScheme
  | none => none

/-- The method `defaultColorScheme()`: dereferences the result of
`findColorScheme`; `none` when that result is `NULL`. -/
def defaultColorScheme (self : ColorMap) : Option ColorScheme :=
  self.findColorScheme DEFAULT_COLOR_SCHEME_NAME

/-- The method `colorSchemeNames(guiOnly)`. -/
def colorSchemeNames (self : ColorMap) (guiOnly : Bool) : List String :=
  (self.colorSchemeSet.filter (fun it => !(guiOnly && !it.2.showInGui))).map (fun it => it.2.name)

/-- The body of the loop of `enumerateColorSchemesInPath` for one directory
entry. The name test is `this->findColorScheme`, which reads the member
`colorSchemeSet` of the object, not `result_set`. -/
def enumerateEntry (self : ColorMap) (result_set : colorscheme_set_t) (e : DirEntry) :
    colorscheme_set_t :=
  if !e.is_regular_file then result_set
  else if !(e.extension == ".json") then result_set
  else
    let colorScheme := RenderColorScheme.fromPath e.path e.json
    if colorScheme.valid && (self.findColorScheme colorScheme.name).isNone then
      colorscheme_set_t.insert colorScheme.index colorScheme result_set
    else result_set

/-- The method `enumerateColorSchemesInPath(result_set, path)`; the by-reference
argument is returned. -/
def enumerateColorSchemesInPath (self : ColorMap) (result_set : colorscheme_set_t)
    (color_schemes : Directory) : colorscheme_set_t :=
  if color_schemes.present && color_schemes.is_directory then
    color_schemes.entries.foldl (enumerateEntry self) result_set
  else result_set

/-- The method `enumerateColorSchemes()`. -/
def enumerateColorSchemes (self : ColorMap) (platform : PlatformUtils) : colorscheme_set_t :=
  let result_set : colorscheme_set_t := []
  let defaultColorScheme := RenderColorScheme.builtIn
  let result_set := colorscheme_set_t.insert defaultColorScheme.index defaultColorScheme result_set
  let result_set := enumerateColorSchemesInPath self result_set platform.resourcesPath
  let result_set := enumerateColorSchemesInPath self result_set platform.userConfigPath
  result_set

/-- The constructor `ColorMap()`: the member `colorSchemeSet` is
default-constructed (empty) when the body runs `enumerateColorSchemes()` on the
object, and is then assigned the result. -/
def new (platform : PlatformUtils) : ColorMap :=
  let self : ColorMap := ⟨[]⟩
  { self with colorSchemeSet := self.enumerateColorSchemes platform }

end ColorMap

/-! ## The singleton -/

/-- The state that `ColorMap::inst` works on: whether the initialiser of its
function-local static has run, the value of the static pointer `instance`
(`none` for `NULL`, otherwise the address and the object there), and the
number of `new ColorMap` evaluated so far, which is also the next address. -/
structure Statics where
  initialized : Bool
  instance_ : Option (Nat × ColorMap)
  allocations : Nat

/-- The state of a process that has not called `ColorMap::inst` yet. -/
def Statics.start : Statics := ⟨false, none, 0⟩

/-- The function `ColorMap::inst(erase)`: the returned pointer and the state
after the call. The initialiser `new ColorMap` runs on the first call only. -/
def ColorMap.inst (platform : PlatformUtils) (erase : Bool) (st : Statics) :
    Option (Nat × ColorMap) × Statics :=
  let st : Statics :=
    if st.initialized then st
    else ⟨true, some (st.allocations, ColorMap.new platform), st.allocations + 1⟩
  let st : Statics := if erase then { st with instance_ := none } else st
  (st.instance_, st)

/-- The function `ColorMap::getColor(cs, rc)`: the returned colour and the
state after the call; `none` when a null pointer is dereferenced. Each
`ColorMap::inst()` is the call with `erase = false`. -/
def ColorMap.getColor (platform : PlatformUtils) (cs : ColorScheme) (rc : RenderColor)
    (st : Statics) : Option Color4f × Statics :=
  if cs.count rc ≠ 0 then (cs.at rc, st)
  else
    match ColorMap.inst platform false st with
    | (none, st1) => (none, st1)
    | (some (_, m1), st1) =>
      match m1.defaultColorScheme with
      | none => (none, st1)
      | some d1 =>
        if d1.count rc ≠ 0 then
          match ColorMap.inst platform false st1 with
          | (none, st2) => (none, st2)
          | (some (_, m2), st2) =>
            match m2.defaultColorScheme with
            | none => (none, st2)
            | some d2 => (d2.at rc, st2)
        else (some ⟨0, 0, 0, 127⟩, st1)

/-! ## The insertion sequence of a build -/

/-- The schemes that the scan of one directory constructs, in iteration order:
one for each regular file whose extension is `.json`; none when the directory
is missing or is not a directory. -/
def scanned (d : Directory) : List RenderColorScheme :=
  if d.present && d.is_directory then
    (d.entries.filter (fun e => e.is_regular_file && e.extension == ".json")).map
      (fun e => RenderColorScheme.fromPath e.path e.json)
  else []

/-- The insertion sequence of a build as the specification describes the
order of insertion: the built-in default first, then the valid discovered
schemes in scan order, the resources root before the user root. The registry
that the code builds is compared with this sequence. -/
def insertionSequence (platform : PlatformUtils) : List RenderColorScheme :=
  RenderColorScheme.builtIn ::
    (scanned platform.resourcesPath ++ scanned platform.userConfigPath).filter (fun s => s.valid)

/-! ## Sample sources -/

/-- A `colors` section that gives the string `bg` for the key `background` and
the string `other` for each of the nine other keys. -/
def sampleColors (bg other : String) : List (String × String) :=
  ("background", bg) :: RenderColorScheme.colorKeys.tail.map (fun p => (p.2, other))

/-- A document with every field present. -/
def sampleTree (n : String) (i : Int) (g : Bool) (bg other : String) : PTree :=
  ⟨.ok n, .ok i, .ok g, .ok (sampleColors bg other)⟩

/-- A regular `.json` file holding `sampleTree`. -/
def sampleEntry (n : String) (i : Int) (g : Bool) (bg other : String) : DirEntry :=
  ⟨n ++ ".json", true, ".json", .ok (sampleTree n i g bg other)⟩

/-- A directory that does not exist. -/
def missingDirectory : Directory := ⟨false, false, []⟩

/-- A platform whose resources root holds the given entries and whose user
root has no scheme directory. -/
def samplePlatform (entries : List DirEntry) : PlatformUtils :=
  ⟨⟨true, true, entries⟩, missingDirectory⟩

/-- A scheme object on which the constructor has read the given document and
nothing else yet. -/
def sampleScheme (tree : PTree) : RenderColorScheme :=
  ⟨"sample.json", tree, "", 0, false, []⟩

/-! ## Auxiliary functions of the statements -/

/-- The colour that `addColor` computes from a string it accepts: the
expressions of its `if` branch. -/
def parsedColor (color : String) : Color4f :=
  let val : Nat := toUnsignedInt (strtol16 (color.data.drop 1))
  let r : Int := ((val >>> 16) &&& 0xff : Nat)
  let g : Int := ((val >>> 8) &&& 0xff : Nat)
  let b : Int := (val &&& 0xff : Nat)
  Color4f.rgb r g b

/-- The colour that `addColor` computes for a key of a `colors` section in
which the key is present. -/
def keyColor (colors : List (String × String)) (key : String) : Color4f :=
  match colors.lookup key with
  | some color => parsedColor color
  | none => ⟨0, 0, 0, 0⟩

/-- The state of a scheme object when the `try` block of the constructor
starts: members default-constructed, `path` set. -/
def RenderColorScheme.initial (path : String) : RenderColorScheme :=
  ⟨path, PTree.empty, "", 0, false, []⟩

/-- The registry collection after the schemes of a sequence are inserted one
after the other, each under its index. -/
def insertAll (seq : List RenderColorScheme) (s : colorscheme_set_t) : colorscheme_set_t :=
  seq.foldl (fun s v => colorscheme_set_t.insert v.index v s) s

/-! ## Characters and `strtol` -/

theorem hexDigitVal_range (c : Char) (d : Nat) (h : hexDigitVal c = some d) :
    (48 ≤ c.toNat ∧ c.toNat ≤ 57 ∧ d = c.toNat - 48) ∨ (97 ≤ c.toNat ∧ c.toNat ≤ 102 ∧ d = c.toNat - 87) ∨
      (65 ≤ c.toNat ∧ c.toNat ≤ 70 ∧ d = c.toNat - 55) := by
  unfold hexDigitVal at h
  simp only [Char.le_def, UInt32.le_def, BitVec.le_def, Char.toNat, UInt32.toNat] at h ⊢
  have e0 : ('0' : Char).val.toBitVec.toNat = 48 := rfl
  have e9 : ('9' : Char).val.toBitVec.toNat = 57 := rfl
  have ea : ('a' : Char).val.toBitVec.toNat = 97 := rfl
  have ef : ('f' : Char).val.toBitVec.toNat = 102 := rfl
  have eA : ('A' : Char).val.toBitVec.toNat = 65 := rfl
  have eF : ('F' : Char).val.toBitVec.toNat = 70 := rfl
  rw [e0, e9, ea, ef, eA, eF] at h
  split_ifs at h with h1 h2 h3
  · simp only [Option.some.injEq] at h; omega
  · simp only [Option.some.injEq] at h; omega
  · simp only [Option.some.injEq] at h; omega

theorem hex_not_special (c : Char) (d : Nat) (h : hexDigitVal c = some d) :
    c ≠ Char.ofNat 0 ∧ isspace c = false ∧ c ≠ '-' ∧ c ≠ '+' ∧ c ≠ 'x' ∧ c ≠ 'X' ∧ d < 16 := by
  have hr := hexDigitVal_range c d h
  have ne : ∀ k : Char, c.toNat ≠ k.toNat → c ≠ k := fun k hk e => hk (by rw [e])
  have k0 : (Char.ofNat 0).toNat = 0 := rfl
  have k1 : (' ' : Char).toNat = 32 := rfl
  have k2 : ('\t' : Char).toNat = 9 := rfl
  have k3 : ('\n' : Char).toNat = 10 := rfl
  have k4 : (Char.ofNat 11).toNat = 11 := rfl
  have k5 : (Char.ofNat 12).toNat = 12 := rfl
  have k6 : ('\r' : Char).toNat = 13 := rfl
  have k7 : ('-' : Char).toNat = 45 := rfl
  have k8 : ('+' : Char).toNat = 43 := rfl
  have k9 : ('x' : Char).toNat = 120 := rfl
  have k10 : ('X' : Char).toNat = 88 := rfl
  refine ⟨ne _ (by omega), ?_, ne _ (by omega), ne _ (by omega), ne _ (by omega), ne _ (by omega), by omega⟩
  unfold isspace
  simp only [Bool.or_eq_false_iff, beq_eq_false_iff_ne, ne_eq]
  exact ⟨⟨⟨⟨⟨ne _ (by omega), ne _ (by omega)⟩, ne _ (by omega)⟩, ne _ (by omega)⟩, ne _ (by omega)⟩, ne _ (by omega)⟩

theorem c_str_of_hex (l : List Char) (h : ∀ c ∈ l, (hexDigitVal c).isSome = true) :
    c_str l = l := by
  unfold c_str
  rw [List.takeWhile_eq_self_iff]
  intro c hc
  obtain ⟨d, hd⟩ := Option.isSome_iff_exists.mp (h c hc)
  have := (hex_not_special c d hd).1
  simpa using this

theorem strtol16_six (c1 c2 c3 c4 c5 c6 : Char) (d1 d2 d3 d4 d5 d6 : Nat)
    (h1 : hexDigitVal c1 = some d1) (h2 : hexDigitVal c2 = some d2)
    (h3 : hexDigitVal c3 = some d3) (h4 : hexDigitVal c4 = some d4)
    (h5 : hexDigitVal c5 = some d5) (h6 : hexDigitVal c6 = some d6) :
    strtol16 [c1, c2, c3, c4, c5, c6] =
      ((((((d1 * 16 + d2) * 16 + d3) * 16 + d4) * 16 + d5) * 16 + d6 : Nat) : Int) := by
  obtain ⟨-, s1, m1, p1, -, -, -⟩ := hex_not_special c1 d1 h1
  obtain ⟨-, -, -, -, x2, y2, -⟩ := hex_not_special c2 d2 h2
  have hc : c_str [c1, c2, c3, c4, c5, c6] = [c1, c2, c3, c4, c5, c6] := by
    apply c_str_of_hex
    intro c hc
    simp only [List.mem_cons, List.mem_singleton, List.not_mem_nil, or_false] at hc
    rcases hc with e | e | e | e | e | e <;> subst e <;> simp [*]
  have hd : List.dropWhile isspace [c1, c2, c3, c4, c5, c6] = [c1, c2, c3, c4, c5, c6] := by
    simp [List.dropWhile, s1]
  have hs : strtolSign [c1, c2, c3, c4, c5, c6] = (false, [c1, c2, c3, c4, c5, c6]) := by
    simp [strtolSign, m1, p1]
  have hp : strtolPrefix16 [c1, c2, c3, c4, c5, c6] = [c1, c2, c3, c4, c5, c6] := by
    simp [strtolPrefix16, x2, y2]
  unfold strtol16
  rw [hc, hd, hs]
  simp only [hp, strtolDigits, h1, h2, h3, h4, h5, h6]
  simp

theorem channel_eq (n k : Nat) : (n >>> k) &&& 0xff = n / 2 ^ k % 256 := by
  rw [Nat.shiftRight_eq_div_pow]
  exact Nat.and_pow_two_sub_one_eq_mod _ 8

theorem low_channel_eq (n : Nat) : n &&& 0xff = n % 256 :=
  Nat.and_pow_two_sub_one_eq_mod _ 8

theorem channels_of_strtol (v : Int) :
    let val := toUnsignedInt v
    (((val >>> 16) &&& 0xff : Nat) : Int) = v / 65536 % 256 ∧
    (((val >>> 8) &&& 0xff : Nat) : Int) = v / 256 % 256 ∧
    ((val &&& 0xff : Nat) : Int) = v % 256 := by
  intro val
  have hv : (val : Int) = v % 4294967296 := by
    show ((v % 4294967296).toNat : Int) = _
    exact Int.toNat_of_nonneg (Int.emod_nonneg _ (by decide))
  rw [channel_eq, channel_eq, low_channel_eq]
  push_cast
  rw [hv]
  refine ⟨?_, ?_, ?_⟩ <;> omega

/-! ## The singleton and colour resolution -/

theorem inst_false_again (platform : PlatformUtils) (st : Statics) :
    ColorMap.inst platform false (ColorMap.inst platform false st).2 =
      ColorMap.inst platform false st := by
  unfold ColorMap.inst
  cases h : st.initialized <;> simp [h]

theorem count_ne_zero_iff (cs : ColorScheme) (rc : RenderColor) :
    cs.count rc ≠ 0 ↔ ∃ c, cs.at rc = some c := by
  unfold ColorScheme.count ColorScheme.at
  cases h : List.lookup rc cs <;> simp

/-- C1: `getColor(cs, rc)` returns the entry of `cs` for `rc` when `cs`
contains `rc`, in every state; otherwise, whenever `ColorMap::inst()` yields a
registry `m` whose default lookup yields the mapping `d`, it returns the entry
of `d` for `rc` when `d` contains `rc`, and the colour (0, 0, 0, 127) when `d`
does not. In each case a colour is returned. -/
theorem getColor_three_tier (platform : PlatformUtils) (cs : ColorScheme) (rc : RenderColor)
    (st : Statics) :
    (cs.count rc ≠ 0 →
      (ColorMap.getColor platform cs rc st).1 = cs.at rc ∧
      ∃ c, (ColorMap.getColor platform cs rc st).1 = some c) ∧
    (∀ (a : Nat) (m : ColorMap) (d : ColorScheme),
      (ColorMap.inst platform false st).1 = some (a, m) → m.defaultColorScheme = some d →
      (cs.count rc = 0 → d.count rc ≠ 0 →
        (ColorMap.getColor platform cs rc st).1 = d.at rc ∧
        ∃ c, (ColorMap.getColor platform cs rc st).1 = some c) ∧
      (cs.count rc = 0 → d.count rc = 0 →
        (ColorMap.getColor platform cs rc st).1 = some ⟨0, 0, 0, 127⟩)) := by
  refine ⟨?_, ?_⟩
  · intro hc
    have e : (ColorMap.getColor platform cs rc st).1 = cs.at rc := by
      unfold ColorMap.getColor
      rw [if_pos hc]
    exact ⟨e, by rw [e]; exact (count_ne_zero_iff cs rc).mp hc⟩
  · intro a m d hinst hd
    have h2 := inst_false_again platform st
    rcases h1 : ColorMap.inst platform false st with ⟨r, st1⟩
    rw [h1] at hinst h2
    simp only at hinst h2
    subst hinst
    refine ⟨?_, ?_⟩
    · intro hc hdc
      have e : (ColorMap.getColor platform cs rc st).1 = d.at rc := by
        unfold ColorMap.getColor
        rw [if_neg (by simpa using hc), h1]
        simp only [hd, if_pos hdc, h2]
      exact ⟨e, by rw [e]; exact (count_ne_zero_iff d rc).mp hdc⟩
    · intro hc hdc
      unfold ColorMap.getColor
      rw [if_neg (by simpa using hc), h1]
      simp only [hd, hdc, ne_eq, not_true_eq_false, if_false]

/-- Witness of C1 in the state of a process that has not used the registry,
with no scheme directory: an explicit entry, a fallback to the default and the
colour for a role that is none of the ten. -/
theorem getColor_three_tier_witness :
    (ColorMap.getColor (samplePlatform []) [(CROSSHAIR_COLOR, ⟨1, 2, 3, 4⟩)] CROSSHAIR_COLOR
        Statics.start).1 = some ⟨1, 2, 3, 4⟩ ∧
    (ColorMap.getColor (samplePlatform []) [(CROSSHAIR_COLOR, ⟨1, 2, 3, 4⟩)] BACKGROUND_COLOR
        Statics.start).1 = some ⟨255, 255, 229, 255⟩ ∧
    (ColorMap.getColor (samplePlatform []) [(CROSSHAIR_COLOR, ⟨1, 2, 3, 4⟩)] (OUT_OF_RANGE 10)
        Statics.start).1 = some ⟨0, 0, 0, 127⟩ :=
  ⟨((getColor_three_tier (samplePlatform []) [(CROSSHAIR_COLOR, ⟨1, 2, 3, 4⟩)] CROSSHAIR_COLOR
      Statics.start).1 (by decide)).1,
   (((getColor_three_tier (samplePlatform []) [(CROSSHAIR_COLOR, ⟨1, 2, 3, 4⟩)] BACKGROUND_COLOR
      Statics.start).2 0 (ColorMap.new (samplePlatform []))
      RenderColorScheme.builtIn.colorScheme rfl rfl).1 (by decide) (by decide)).1,
   ((getColor_three_tier (samplePlatform []) [(CROSSHAIR_COLOR, ⟨1, 2, 3, 4⟩)] (OUT_OF_RANGE 10)
      Statics.start).2 0 (ColorMap.new (samplePlatform []))
      RenderColorScheme.builtIn.colorScheme rfl rfl).2 (by decide) (by decide)⟩

/-- C5, counterexample: in a process that has not used the registry, the call
`inst(true)` followed by `inst(false)` returns null from the second call, and
the only construction is the one made by the first call. -/
theorem inst_after_reset_counterexample :
    (ColorMap.inst (samplePlatform []) false
        (ColorMap.inst (samplePlatform []) true Statics.start).2).1 = none ∧
    (ColorMap.inst (samplePlatform []) false
        (ColorMap.inst (samplePlatform []) true Statics.start).2).2.allocations =
      (ColorMap.inst (samplePlatform []) true Statics.start).2.allocations :=
  ⟨rfl, rfl⟩

/-- C5, amended: in every state, after a call `inst(true)` the next call
`inst(false)` returns null and leaves the state as the reset left it: it
constructs nothing and the stored instance stays null. -/
theorem inst_after_reset (platform : PlatformUtils) (st : Statics) :
    ColorMap.inst platform false (ColorMap.inst platform true st).2 =
      (none, (ColorMap.inst platform true st).2) ∧
    (ColorMap.inst platform false (ColorMap.inst platform true st).2).2.allocations =
      (ColorMap.inst platform true st).2.allocations ∧
    (ColorMap.inst platform false (ColorMap.inst platform true st).2).2.instance_ = none := by
  unfold ColorMap.inst
  cases h : st.initialized <;> simp [h]

/-- C6: in every state `inst(true)` returns null and leaves the stored
instance null; and in a process that never resets, every call `inst(false)`
returns the same non-null instance: the object built by the first call, at
the same address. -/
theorem inst_reset_null_and_stable (platform : PlatformUtils) :
    (∀ st : Statics, (ColorMap.inst platform true st).1 = none ∧
      (ColorMap.inst platform true st).2.instance_ = none) ∧
    (∀ n : Nat,
      (ColorMap.inst platform false
        ((fun s => (ColorMap.inst platform false s).2)^[n] Statics.start)).1 =
        some (0, ColorMap.new platform)) ∧
    (∀ n : Nat,
      ((fun s => (ColorMap.inst platform false s).2)^[n] Statics.start).allocations ≤ 1) := by
  refine ⟨?_, ?_⟩
  · intro st
    unfold ColorMap.inst
    cases h : st.initialized <;> simp [h]
  · have key : ∀ n : Nat,
        (fun s => (ColorMap.inst platform false s).2)^[n + 1] Statics.start =
          ⟨true, some (0, ColorMap.new platform), 1⟩ := by
      intro n
      induction n with
      | zero => rfl
      | succ k ih =>
        rw [Function.iterate_succ_apply', ih]
        rfl
    constructor
    · intro n
      cases n with
      | zero => rfl
      | succ k => rw [key k]; rfl
    · intro n
      cases n with
      | zero => exact Nat.zero_le _
      | succ k => rw [key k]

/-- C8: the scheme built by `RenderColorScheme()` has name "Cornfield", index
1000, is shown in the GUI, is valid, and maps exactly the ten roles to the
listed constants with alpha 255; the registry built with no scheme directory,
or with an empty one, has this mapping as its default, and `getColor` on it
returns the listed constant for each of the ten roles. -/
theorem builtIn_scheme :
    RenderColorScheme.builtIn.name = "Cornfield" ∧
    RenderColorScheme.builtIn.index = 1000 ∧
    RenderColorScheme.builtIn.showInGui = true ∧
    RenderColorScheme.builtIn.valid = true ∧
    RenderColorScheme.builtIn.colorScheme =
      [(BACKGROUND_COLOR, ⟨0xff, 0xff, 0xe5, 255⟩),
       (OPENCSG_FACE_FRONT_COLOR, ⟨0xf9, 0xd7, 0x2c, 255⟩),
       (OPENCSG_FACE_BACK_COLOR, ⟨0x9d, 0xcb, 0x51, 255⟩),
       (CGAL_FACE_FRONT_COLOR, ⟨0xf9, 0xd7, 0x2c, 255⟩),
       (CGAL_FACE_2D_COLOR, ⟨0x00, 0xbf, 0x99, 255⟩),
       (CGAL_FACE_BACK_COLOR, ⟨0x9d, 0xcb, 0x51, 255⟩),
       (CGAL_EDGE_FRONT_COLOR, ⟨0xff, 0xec, 0x5e, 255⟩),
       (CGAL_EDGE_BACK_COLOR, ⟨0xab, 0xd8, 0x56, 255⟩),
       (CGAL_EDGE_2D_COLOR, ⟨0xff, 0x00, 0x00, 255⟩),
       (CROSSHAIR_COLOR, ⟨0x80, 0x00, 0x00, 255⟩)] ∧
    (ColorMap.new ⟨missingDirectory, missingDirectory⟩).defaultColorScheme =
      some RenderColorScheme.builtIn.colorScheme ∧
    (ColorMap.new (samplePlatform [])).defaultColorScheme =
      some RenderColorScheme.builtIn.colorScheme ∧
    (∀ p ∈ RenderColorScheme.builtIn.colorScheme,
      (ColorMap.getColor ⟨missingDirectory, missingDirectory⟩
        RenderColorScheme.builtIn.colorScheme p.1 Statics.start).1 = some p.2) := by
  refine ⟨rfl, rfl, rfl, rfl, rfl, rfl, rfl, ?_⟩
  decide

/-- C2, the code at the failing input: one discovered source named
"Cornfield" with index 5 and an all-black palette. Both schemes are retained,
the discovered one first, and the default lookup returns its palette: the
background of the default is (0, 0, 0) where the built-in has (255, 255, 229). -/
theorem default_replaced_at_failing_input :
    (ColorMap.new (samplePlatform [sampleEntry "Cornfield" 5 true "#000000" "#000000"])
      ).colorSchemeNames false = ["Cornfield", "Cornfield"] ∧
    ((ColorMap.new (samplePlatform [sampleEntry "Cornfield" 5 true "#000000" "#000000"])
      ).defaultColorScheme.bind (fun d => d.at BACKGROUND_COLOR)) = some ⟨0, 0, 0, 255⟩ ∧
    RenderColorScheme.builtIn.colorScheme.at BACKGROUND_COLOR = some ⟨255, 255, 229, 255⟩ ∧
    (ColorMap.getColor (samplePlatform [sampleEntry "Cornfield" 5 true "#000000" "#000000"])
      [] BACKGROUND_COLOR Statics.start).1 = some ⟨0, 0, 0, 255⟩ := by
  decide

/-- C3, the code at the failing input: two valid sources that both declare
the name "A", with indices 1 and 2. Both are retained and the listing has the
name twice. -/
theorem duplicate_name_at_failing_input :
    (ColorMap.new (samplePlatform [sampleEntry "A" 1 true "#112233" "#000000",
        sampleEntry "A" 2 true "#445566" "#000000"])).colorSchemeNames false =
      ["A", "A", "Cornfield"] ∧
    (ColorMap.new (samplePlatform [sampleEntry "A" 1 true "#112233" "#000000",
        sampleEntry "A" 2 true "#445566" "#000000"])).colorSchemeSet.map
        (fun it => (it.1, it.2.colorScheme.at BACKGROUND_COLOR)) =
      [(1, some ⟨17, 34, 51, 255⟩), (2, some ⟨68, 85, 102, 255⟩),
       (1000, some ⟨255, 255, 229, 255⟩)] := by
  decide

/-- C4, the code at the failing input: a source named "Z" whose background
is "#ZZZZZZ". The scheme is valid with background (0, 0, 0), the registry
retains it and finds it by name. A source whose background is "123456" is
rejected. -/
theorem non_hex_colour_at_failing_input :
    (RenderColorScheme.fromPath "Z.json" (.ok (sampleTree "Z" 7 true "#ZZZZZZ" "#000000"))
      ).valid = true ∧
    (RenderColorScheme.fromPath "Z.json" (.ok (sampleTree "Z" 7 true "#ZZZZZZ" "#000000"))
      ).colorScheme.at BACKGROUND_COLOR = some ⟨0, 0, 0, 255⟩ ∧
    (ColorMap.new (samplePlatform [sampleEntry "Z" 7 true "#ZZZZZZ" "#000000"])
      ).colorSchemeNames false = ["Z", "Cornfield"] ∧
    ((ColorMap.new (samplePlatform [sampleEntry "Z" 7 true "#ZZZZZZ" "#000000"])
      ).findColorScheme "Z").isSome = true ∧
    (RenderColorScheme.fromPath "Y.json" (.ok (sampleTree "Y" 7 true "123456" "#000000"))
      ).valid = false ∧
    (ColorMap.new (samplePlatform [sampleEntry "Y" 7 true "123456" "#000000"])
      ).colorSchemeNames false = ["Cornfield"] := by
  decide

/-! ## Construction of a scheme from a source -/

theorem addColor_ok_of_accepted (self : RenderColorScheme) (colorKey : RenderColor)
    (key : String) (colors : List (String × String)) (color : String)
    (hc : self.pt.colors = .ok colors) (hk : getString colors key = .ok color)
    (hl : color.length = 7) (hh : color.data.head? = some '#') :
    RenderColorScheme.addColor self colorKey key =
      .ok { self with _color_scheme := self._color_scheme.insert colorKey (keyColor colors key) } := by
  have hlk : colors.lookup key = some color := by
    unfold getString at hk
    cases h : colors.lookup key with
    | none => rw [h] at hk; cases hk
    | some v => rw [h] at hk; cases hk; rfl
  unfold RenderColorScheme.addColor
  rw [hc]
  simp only [hk, hl, hh, and_self, if_true, keyColor, hlk, parsedColor]

theorem addColor_ok_inv (self s1 : RenderColorScheme) (colorKey : RenderColor) (key : String)
    (h : RenderColorScheme.addColor self colorKey key = .ok s1) :
    ∃ colors color, self.pt.colors = .ok colors ∧ getString colors key = .ok color ∧
      color.length = 7 ∧ color.data.head? = some '#' := by
  unfold RenderColorScheme.addColor at h
  cases hc : self.pt.colors with
  | error e => simp only [hc] at h; cases h
  | ok colors =>
    cases hk : getString colors key with
    | error e => simp only [hc, hk] at h; cases h
    | ok color =>
      by_cases hacc : color.length = 7 ∧ color.data.head? = some '#'
      · exact ⟨colors, color, rfl, hk, hacc.1, hacc.2⟩
      · simp only [hc, hk, hacc, if_false] at h
        cases h

theorem addColors_ok (colors : List (String × String)) :
    ∀ (l : List (RenderColor × String)) (self : RenderColorScheme),
      self.pt.colors = .ok colors →
      (∀ p ∈ l, ∃ color, getString colors p.2 = .ok color ∧ color.length = 7 ∧
        color.data.head? = some '#') →
      RenderColorScheme.addColors l self =
        ({ self with _color_scheme :=
            (l.foldl (fun cs p => cs.insert p.1 (keyColor colors p.2)) self._color_scheme) },
          none) := by
  intro l
  induction l with
  | nil => intro self _ _; rfl
  | cons p rest ih =>
    intro self hc hall
    obtain ⟨color, hk, hl, hh⟩ := hall p (List.mem_cons_self _ _)
    obtain ⟨colorKey, key⟩ := p
    unfold RenderColorScheme.addColors
    rw [addColor_ok_of_accepted self colorKey key colors color hc hk hl hh]
    simp only
    have hrest := ih
      { self with _color_scheme := self._color_scheme.insert colorKey (keyColor colors key) }
      hc (fun q hq => hall q (List.mem_cons_of_mem _ hq))
    rw [hrest]
    rfl

theorem addColors_none_inv :
    ∀ (l : List (RenderColor × String)) (self s1 : RenderColorScheme),
      RenderColorScheme.addColors l self = (s1, none) →
      ∀ colors, self.pt.colors = .ok colors →
      ∀ p ∈ l, ∃ color, getString colors p.2 = .ok color ∧ color.length = 7 ∧
        color.data.head? = some '#' := by
  intro l
  induction l with
  | nil => intro _ _ _ _ _ p hp; cases hp
  | cons q rest ih =>
    intro self s1 h colors hc p hp
    obtain ⟨colorKey, key⟩ := q
    unfold RenderColorScheme.addColors at h
    cases ha : RenderColorScheme.addColor self colorKey key with
    | error e => simp only [ha] at h; cases h
    | ok s2 =>
      simp only [ha] at h
      obtain ⟨colors2, color, hc2, hk, hl, hh⟩ := addColor_ok_inv self s2 colorKey key ha
      rw [hc] at hc2
      cases hc2
      rcases List.mem_cons.mp hp with e | hmem
      · subst e
        exact ⟨color, hk, hl, hh⟩
      · have hs2 := addColor_ok_of_accepted self colorKey key colors color hc hk hl hh
        rw [ha] at hs2
        cases hs2
        exact ih _ s1 h colors hc p hmem

theorem addColors_first_colors (p : RenderColor × String) (rest : List (RenderColor × String))
    (self s1 : RenderColorScheme)
    (h : RenderColorScheme.addColors (p :: rest) self = (s1, none)) :
    ∃ colors, self.pt.colors = .ok colors := by
  obtain ⟨colorKey, key⟩ := p
  unfold RenderColorScheme.addColors at h
  cases ha : RenderColorScheme.addColor self colorKey key with
  | error e => simp only [ha] at h; cases h
  | ok s2 =>
    obtain ⟨colors, _, hc, _⟩ := addColor_ok_inv self s2 colorKey key ha
    exact ⟨colors, hc⟩

theorem lookup_append_of_none (k : RenderColor) (l : ColorScheme) :
    ∀ cs : ColorScheme, cs.lookup k = none → (cs ++ l).lookup k = l.lookup k := by
  intro cs
  induction cs with
  | nil => intro _; rfl
  | cons x rest ih =>
    intro h
    obtain ⟨k1, v1⟩ := x
    rw [List.cons_append]
    rw [List.lookup_cons] at h ⊢
    cases hb : (k == k1) with
    | true => rw [hb] at h; cases h
    | false => rw [hb] at h; exact ih h

theorem foldl_insert_fresh (f : String → Color4f) :
    ∀ (l : List (RenderColor × String)) (cs : ColorScheme),
      (l.map Prod.fst).Nodup → (∀ p ∈ l, cs.lookup p.1 = none) →
      l.foldl (fun (cs : ColorScheme) p => cs.insert p.1 (f p.2)) cs =
        cs ++ l.map (fun p => (p.1, f p.2)) := by
  intro l
  induction l with
  | nil => intro cs _ _; simp
  | cons p rest ih =>
    intro cs hnd hfresh
    rw [List.map_cons, List.nodup_cons] at hnd
    have hp : cs.lookup p.1 = none := hfresh p (List.mem_cons_self _ _)
    have hins : cs.insert p.1 (f p.2) = cs ++ [(p.1, f p.2)] := by
      unfold ColorScheme.insert
      rw [hp]
      rfl
    rw [List.foldl_cons, hins, ih _ hnd.2]
    · simp
    · intro q hq
      rw [lookup_append_of_none _ _ _ (hfresh q (List.mem_cons_of_mem _ hq))]
      have hne : q.1 ≠ p.1 := by
        intro e
        exact hnd.1 (e ▸ List.mem_map_of_mem Prod.fst hq)
      have hb : (q.1 == p.1) = false := by simpa using hne
      simp only [List.lookup, hb]

theorem colorKeys_fold (f : String → Color4f) :
    RenderColorScheme.colorKeys.foldl (fun (cs : ColorScheme) p => cs.insert p.1 (f p.2)) [] =
      RenderColorScheme.colorKeys.map (fun p => (p.1, f p.2)) := by
  rw [foldl_insert_fresh f RenderColorScheme.colorKeys [] (by decide) (fun _ _ => rfl)]
  rfl

theorem tryBlock_ok (self : RenderColorScheme) (tree : PTree) (n : String) (i : Int)
    (g : Bool) (colors : List (String × String))
    (hn : tree.name = .ok n) (hi : tree.index = .ok i) (hg : tree.show_in_gui = .ok g)
    (hc : tree.colors = .ok colors)
    (hall : ∀ p ∈ RenderColorScheme.colorKeys, ∃ color, getString colors p.2 = .ok color ∧
      color.length = 7 ∧ color.data.head? = some '#') :
    RenderColorScheme.tryBlock (.ok tree) self =
      (⟨self.path, tree, n, i, g,
        RenderColorScheme.colorKeys.foldl (fun cs p => cs.insert p.1 (keyColor colors p.2))
          self._color_scheme⟩, none) := by
  unfold RenderColorScheme.tryBlock
  simp only [hn, hi, hg]
  rw [addColors_ok colors RenderColorScheme.colorKeys _ hc hall]

theorem tryBlock_none_inv (json : Except StdException PTree) (self s1 : RenderColorScheme)
    (h : RenderColorScheme.tryBlock json self = (s1, none)) :
    ∃ tree n i g colors, json = .ok tree ∧ tree.name = .ok n ∧ tree.index = .ok i ∧
      tree.show_in_gui = .ok g ∧ tree.colors = .ok colors ∧
      ∀ p ∈ RenderColorScheme.colorKeys, ∃ color, getString colors p.2 = .ok color ∧
        color.length = 7 ∧ color.data.head? = some '#' := by
  unfold RenderColorScheme.tryBlock at h
  cases json with
  | error e => cases h
  | ok tree =>
    cases hn : tree.name with
    | error e => simp only [hn] at h; cases h
    | ok n =>
      cases hi : tree.index with
      | error e => simp only [hn, hi] at h; cases h
      | ok i =>
        cases hg : tree.show_in_gui with
        | error e => simp only [hn, hi, hg] at h; cases h
        | ok g =>
          simp only [hn, hi, hg] at h
          obtain ⟨colors, hc⟩ := addColors_first_colors _ _ _ _ h
          exact ⟨tree, n, i, g, colors, rfl, hn, hi, hg, hc,
            addColors_none_inv _ _ _ h colors hc⟩

theorem fromPath_ok (path : String) (tree : PTree) (n : String) (i : Int)
    (g : Bool) (colors : List (String × String))
    (hn : tree.name = .ok n) (hi : tree.index = .ok i) (hg : tree.show_in_gui = .ok g)
    (hc : tree.colors = .ok colors)
    (hall : ∀ p ∈ RenderColorScheme.colorKeys, ∃ color, getString colors p.2 = .ok color ∧
      color.length = 7 ∧ color.data.head? = some '#') :
    RenderColorScheme.fromPath path (.ok tree) =
      ⟨path, tree, n, i, g,
        RenderColorScheme.colorKeys.map (fun p => (p.1, keyColor colors p.2))⟩ := by
  unfold RenderColorScheme.fromPath
  simp only
  rw [tryBlock_ok _ tree n i g colors hn hi hg hc hall]
  simp only [colorKeys_fold]

theorem fromPath_failed (path : String) (json : Except StdException PTree)
    (h : (RenderColorScheme.tryBlock json (RenderColorScheme.initial path)).2 ≠ none) :
    (RenderColorScheme.fromPath path json).name = "" ∧
    (RenderColorScheme.fromPath path json).index = 0 ∧
    (RenderColorScheme.fromPath path json).showInGui = false ∧
    (RenderColorScheme.fromPath path json).valid = false := by
  unfold RenderColorScheme.fromPath
  simp only
  rcases ht : RenderColorScheme.tryBlock json ⟨path, PTree.empty, "", 0, false, []⟩ with ⟨s, r⟩
  cases r with
  | none => exact absurd (by rw [RenderColorScheme.initial, ht]) h
  | some e => exact ⟨rfl, rfl, rfl, rfl⟩

theorem valid_iff_name (s : RenderColorScheme) : s.valid = true ↔ s.name ≠ "" := by
  unfold RenderColorScheme.valid RenderColorScheme.name
  have h := String.isEmpty_iff (s := s._name)
  cases hb : s._name.isEmpty
  · simp only [Bool.not_false, ne_eq, true_iff]
    intro e
    rw [h.mpr e] at hb
    cases hb
  · simp only [Bool.not_true, ne_eq, false_iff, not_not, Bool.false_eq_true]
    exact h.mp hb

/-- C9: when extraction from a source fails at any point (the document is
unreadable, or `name`, `index`, `show-in-gui`, the `colors` section or one of
the ten colour keys cannot be read, or `addColor` rejects one of the ten
values), the constructed scheme has name "", index 0, is not shown in the GUI
and is not valid; and a scheme is valid exactly when its name is not empty. -/
theorem failed_source_fully_invalid (path : String) (json : Except StdException PTree)
    (hfail : ¬ ∃ tree n i g colors, json = .ok tree ∧ tree.name = .ok n ∧
      tree.index = .ok i ∧ tree.show_in_gui = .ok g ∧ tree.colors = .ok colors ∧
      ∀ p ∈ RenderColorScheme.colorKeys, ∃ color, getString colors p.2 = .ok color ∧
        color.length = 7 ∧ color.data.head? = some '#') :
    (RenderColorScheme.fromPath path json).name = "" ∧
    (RenderColorScheme.fromPath path json).index = 0 ∧
    (RenderColorScheme.fromPath path json).showInGui = false ∧
    (RenderColorScheme.fromPath path json).valid = false ∧
    (∀ s : RenderColorScheme, s.valid = true ↔ s.name ≠ "") := by
  have h : (RenderColorScheme.tryBlock json (RenderColorScheme.initial path)).2 ≠ none := by
    intro hnone
    apply hfail
    rcases ht : RenderColorScheme.tryBlock json (RenderColorScheme.initial path) with ⟨s, r⟩
    rw [ht] at hnone
    simp only at hnone
    subst hnone
    exact tryBlock_none_inv json _ s ht
  obtain ⟨h1, h2, h3, h4⟩ := fromPath_failed path json h
  exact ⟨h1, h2, h3, h4, valid_iff_name⟩

/-- Witness of C9: a source whose name, index, visibility and background are
read before the value "12345" of the second colour key is rejected. -/
theorem failed_source_fully_invalid_witness :
    (RenderColorScheme.fromPath "A.json" (.ok (sampleTree "A" 5 true "#112233" "12345"))).name = "" ∧
    (RenderColorScheme.fromPath "A.json" (.ok (sampleTree "A" 5 true "#112233" "12345"))).index = 0 ∧
    (RenderColorScheme.fromPath "A.json" (.ok (sampleTree "A" 5 true "#112233" "12345"))
      ).showInGui = false ∧
    (RenderColorScheme.fromPath "A.json" (.ok (sampleTree "A" 5 true "#112233" "12345"))
      ).valid = false ∧
    (∀ s : RenderColorScheme, s.valid = true ↔ s.name ≠ "") :=
  failed_source_fully_invalid "A.json" (.ok (sampleTree "A" 5 true "#112233" "12345"))
    (by
      rintro ⟨tree, n, i, g, colors, hj, -, -, -, hc, hall⟩
      cases hj
      cases hc
      obtain ⟨color, hk, hl, -⟩ :=
        hall (OPENCSG_FACE_FRONT_COLOR, "opencsg-face-front") (by decide)
      have hk2 : getString (sampleColors "#112233" "12345") "opencsg-face-front" =
          .ok "12345" := rfl
      rw [hk2] at hk
      cases hk
      revert hl
      decide)

theorem lookup_map_of_mem (f : String → Color4f) :
    ∀ l : List (RenderColor × String), (l.map Prod.fst).Nodup → ∀ p ∈ l,
      (l.map (fun q => (q.1, f q.2))).lookup p.1 = some (f p.2) := by
  intro l
  induction l with
  | nil => intro _ p hp; cases hp
  | cons x rest ih =>
    intro hnd p hp
    rw [List.map_cons, List.nodup_cons] at hnd
    rw [List.map_cons, List.lookup_cons]
    rcases List.mem_cons.mp hp with e | hmem
    · subst e
      simp
    · have hne : (p.1 == x.1) = false := by
        have : p.1 ≠ x.1 := fun e => hnd.1 (e ▸ List.mem_map_of_mem Prod.fst hmem)
        simpa using this
      rw [hne]
      exact ih hnd.2 p hmem

theorem toUnsignedInt_natCast (v : Nat) (h : v < 4294967296) : toUnsignedInt (v : Int) = v := by
  unfold toUnsignedInt
  omega

theorem parsedColor_six (c1 c2 c3 c4 c5 c6 : Char) (d1 d2 d3 d4 d5 d6 : Nat)
    (h1 : hexDigitVal c1 = some d1) (h2 : hexDigitVal c2 = some d2)
    (h3 : hexDigitVal c3 = some d3) (h4 : hexDigitVal c4 = some d4)
    (h5 : hexDigitVal c5 = some d5) (h6 : hexDigitVal c6 = some d6) :
    parsedColor (String.mk ['#', c1, c2, c3, c4, c5, c6]) =
      ⟨(d1 * 16 + d2 : Nat), (d3 * 16 + d4 : Nat), (d5 * 16 + d6 : Nat), 255⟩ := by
  have b1 := (hex_not_special c1 d1 h1).2.2.2.2.2.2
  have b2 := (hex_not_special c2 d2 h2).2.2.2.2.2.2
  have b3 := (hex_not_special c3 d3 h3).2.2.2.2.2.2
  have b4 := (hex_not_special c4 d4 h4).2.2.2.2.2.2
  have b5 := (hex_not_special c5 d5 h5).2.2.2.2.2.2
  have b6 := (hex_not_special c6 d6 h6).2.2.2.2.2.2
  unfold parsedColor
  have hdrop : (String.mk ['#', c1, c2, c3, c4, c5, c6]).data.drop 1 = [c1, c2, c3, c4, c5, c6] :=
    rfl
  rw [hdrop, strtol16_six c1 c2 c3 c4 c5 c6 d1 d2 d3 d4 d5 d6 h1 h2 h3 h4 h5 h6]
  rw [toUnsignedInt_natCast _ (by omega)]
  simp only [low_channel_eq, Nat.shiftRight_eq_div_pow, Color4f.rgb]
  have e1 : (((((d1 * 16 + d2) * 16 + d3) * 16 + d4) * 16 + d5) * 16 + d6) / 2 ^ 16 % 256 =
      d1 * 16 + d2 := by omega
  have e2 : (((((d1 * 16 + d2) * 16 + d3) * 16 + d4) * 16 + d5) * 16 + d6) / 2 ^ 8 % 256 =
      d3 * 16 + d4 := by omega
  have e3 : (((((d1 * 16 + d2) * 16 + d3) * 16 + d4) * 16 + d5) * 16 + d6) % 256 =
      d5 * 16 + d6 := by omega
  rw [e1, e2, e3]

theorem getColor_of_entry (platform : PlatformUtils) (cs : ColorScheme) (rc : RenderColor)
    (c : Color4f) (st : Statics) (h : cs.lookup rc = some c) :
    ColorMap.getColor platform cs rc st = (some c, st) := by
  unfold ColorMap.getColor
  have hc : cs.count rc ≠ 0 := (count_ne_zero_iff cs rc).mpr ⟨c, h⟩
  rw [if_pos hc]
  unfold ColorScheme.at
  rw [h]

theorem getString_lookup (colors : List (String × String)) (key color : String)
    (h : getString colors key = .ok color) : colors.lookup key = some color := by
  unfold getString at h
  cases hl : colors.lookup key with
  | none => rw [hl] at h; cases h
  | some v => rw [hl] at h; cases h; rfl

theorem sampleColors_accepted (bg other : String)
    (hb : bg.length = 7 ∧ bg.data.head? = some '#')
    (ho : other.length = 7 ∧ other.data.head? = some '#') :
    ∀ p ∈ RenderColorScheme.colorKeys, ∃ color,
      getString (sampleColors bg other) p.2 = .ok color ∧
      color.length = 7 ∧ color.data.head? = some '#' := by
  intro p hp
  simp only [RenderColorScheme.colorKeys, List.mem_cons, List.mem_singleton,
    List.not_mem_nil, or_false] at hp
  rcases hp with e | e | e | e | e | e | e | e | e | e <;> subst e
  · exact ⟨bg, rfl, hb.1, hb.2⟩
  all_goals exact ⟨other, rfl, ho.1, ho.2⟩

/-- C7: for a source whose name (not empty), index, visibility and `colors`
section are read and whose ten colour values are all accepted, the constructed
scheme is valid; and for each of the ten keys whose value is `#` followed by
six hexadecimal digits (either case) with digit values d1..d6, `getColor` on
the mapping of the scheme returns for the role of the key red = 16 d1 + d2,
green = 16 d3 + d4, blue = 16 d5 + d6 and alpha 255, which are the parts
(v >> 16) & 255, (v >> 8) & 255, v & 255 of the 24-bit value v of the digits. -/
theorem hex_colour_round_trip (platform : PlatformUtils) (st : Statics) (path : String)
    (tree : PTree) (n : String) (i : Int) (g : Bool) (colors : List (String × String))
    (hn : tree.name = .ok n) (hne : n ≠ "") (hi : tree.index = .ok i)
    (hg : tree.show_in_gui = .ok g) (hc : tree.colors = .ok colors)
    (hall : ∀ p ∈ RenderColorScheme.colorKeys, ∃ color, getString colors p.2 = .ok color ∧
      color.length = 7 ∧ color.data.head? = some '#') :
    (RenderColorScheme.fromPath path (.ok tree)).valid = true ∧
    ∀ p ∈ RenderColorScheme.colorKeys, ∀ (c1 c2 c3 c4 c5 c6 : Char) (d1 d2 d3 d4 d5 d6 : Nat),
      getString colors p.2 = .ok (String.mk ['#', c1, c2, c3, c4, c5, c6]) →
      hexDigitVal c1 = some d1 → hexDigitVal c2 = some d2 → hexDigitVal c3 = some d3 →
      hexDigitVal c4 = some d4 → hexDigitVal c5 = some d5 → hexDigitVal c6 = some d6 →
      (ColorMap.getColor platform (RenderColorScheme.fromPath path (.ok tree)).colorScheme
        p.1 st).1 =
        some ⟨(d1 * 16 + d2 : Nat), (d3 * 16 + d4 : Nat), (d5 * 16 + d6 : Nat), 255⟩ ∧
      d1 * 16 + d2 =
        ((((((d1 * 16 + d2) * 16 + d3) * 16 + d4) * 16 + d5) * 16 + d6) >>> 16) &&& 255 ∧
      d3 * 16 + d4 =
        ((((((d1 * 16 + d2) * 16 + d3) * 16 + d4) * 16 + d5) * 16 + d6) >>> 8) &&& 255 ∧
      d5 * 16 + d6 =
        (((((d1 * 16 + d2) * 16 + d3) * 16 + d4) * 16 + d5) * 16 + d6) &&& 255 := by
  have hfrom := fromPath_ok path tree n i g colors hn hi hg hc hall
  refine ⟨?_, ?_⟩
  · rw [hfrom]
    exact (valid_iff_name _).mpr hne
  · intro p hp c1 c2 c3 c4 c5 c6 d1 d2 d3 d4 d5 d6 hk h1 h2 h3 h4 h5 h6
    have b1 := (hex_not_special c1 d1 h1).2.2.2.2.2.2
    have b2 := (hex_not_special c2 d2 h2).2.2.2.2.2.2
    have b3 := (hex_not_special c3 d3 h3).2.2.2.2.2.2
    have b4 := (hex_not_special c4 d4 h4).2.2.2.2.2.2
    have b5 := (hex_not_special c5 d5 h5).2.2.2.2.2.2
    have b6 := (hex_not_special c6 d6 h6).2.2.2.2.2.2
    refine ⟨?_, ?_, ?_, ?_⟩
    · have hlook : (RenderColorScheme.fromPath path (.ok tree)).colorScheme.lookup p.1 =
          some (keyColor colors p.2) := by
        rw [hfrom]
        exact lookup_map_of_mem (keyColor colors) RenderColorScheme.colorKeys (by decide) p hp
      rw [getColor_of_entry platform _ p.1 _ st hlook]
      simp only [keyColor, getString_lookup colors p.2 _ hk]
      rw [parsedColor_six c1 c2 c3 c4 c5 c6 d1 d2 d3 d4 d5 d6 h1 h2 h3 h4 h5 h6]
    · rw [channel_eq]; omega
    · rw [channel_eq]; omega
    · rw [low_channel_eq]; omega

/-- Witness of C7: the background "#112233" gives (17, 34, 51) with alpha 255. -/
theorem hex_colour_round_trip_witness :
    (RenderColorScheme.fromPath "A.json" (.ok (sampleTree "A" 5 true "#112233" "#aBcDeF"))
      ).valid = true ∧
    (ColorMap.getColor (samplePlatform [])
      (RenderColorScheme.fromPath "A.json" (.ok (sampleTree "A" 5 true "#112233" "#aBcDeF"))
        ).colorScheme BACKGROUND_COLOR Statics.start).1 = some ⟨17, 34, 51, 255⟩ :=
  ⟨(hex_colour_round_trip (samplePlatform []) Statics.start "A.json"
      (sampleTree "A" 5 true "#112233" "#aBcDeF") "A" 5 true (sampleColors "#112233" "#aBcDeF")
      rfl (by decide) rfl rfl rfl
      (sampleColors_accepted _ _ (by decide) (by decide))).1,
   ((hex_colour_round_trip (samplePlatform []) Statics.start "A.json"
      (sampleTree "A" 5 true "#112233" "#aBcDeF") "A" 5 true (sampleColors "#112233" "#aBcDeF")
      rfl (by decide) rfl rfl rfl
      (sampleColors_accepted _ _ (by decide) (by decide))).2
      (BACKGROUND_COLOR, "background") (by decide) '1' '1' '2' '2' '3' '3' 1 1 2 2 3 3
      rfl rfl rfl rfl rfl rfl rfl).1⟩

theorem strtolDigits_append (rest : List Char)
    (hrest : ∀ c, rest.head? = some c → hexDigitVal c = none) :
    ∀ (pre : List Char) (acc : Nat), (∀ c ∈ pre, (hexDigitVal c).isSome = true) →
      strtolDigits acc (pre ++ rest) = strtolDigits acc pre := by
  intro pre
  induction pre with
  | nil =>
    intro acc _
    cases rest with
    | nil => rfl
    | cons c tl =>
      have := hrest c rfl
      simp only [List.nil_append, strtolDigits, this]
  | cons a tl ih =>
    intro acc hpre
    obtain ⟨d, hd⟩ := Option.isSome_iff_exists.mp (hpre a (List.mem_cons_self _ _))
    simp only [List.cons_append, strtolDigits, hd]
    exact ih _ (fun c hc => hpre c (List.mem_cons_of_mem _ hc))

theorem c_str_head (rest : List Char) (c : Char) (h : (c_str rest).head? = some c) :
    rest.head? = some c := by
  unfold c_str at h
  cases rest with
  | nil => cases h
  | cons a tl =>
    rw [List.takeWhile_cons] at h
    by_cases ha : (a != Char.ofNat 0) = true
    · rw [if_pos ha] at h
      exact h
    · rw [if_neg ha] at h
      cases h

theorem strtol16_hex_run (a : Char) (pre rest : List Char)
    (hpre : ∀ c ∈ a :: pre, (hexDigitVal c).isSome = true)
    (hrest : ∀ c, rest.head? = some c → hexDigitVal c = none ∧ c ≠ 'x' ∧ c ≠ 'X') :
    strtol16 (a :: pre ++ rest) = (strtolDigits 0 (a :: pre) : Nat) := by
  obtain ⟨d, hd⟩ := Option.isSome_iff_exists.mp (hpre a (List.mem_cons_self _ _))
  obtain ⟨-, s1, m1, p1, -, -, -⟩ := hex_not_special a d hd
  have hc : c_str (a :: pre ++ rest) = a :: pre ++ c_str rest := by
    unfold c_str
    apply List.takeWhile_append_of_pos
    intro c hc
    obtain ⟨d, hd⟩ := Option.isSome_iff_exists.mp (hpre c hc)
    simpa using (hex_not_special c d hd).1
  have hr : ∀ c, (c_str rest).head? = some c → hexDigitVal c = none ∧ c ≠ 'x' ∧ c ≠ 'X' :=
    fun c h => hrest c (c_str_head rest c h)
  have hdw : List.dropWhile isspace (a :: pre ++ c_str rest) = a :: pre ++ c_str rest := by
    simp [List.dropWhile, s1]
  have hs : strtolSign (a :: pre ++ c_str rest) = (false, a :: pre ++ c_str rest) := by
    simp [strtolSign, m1, p1]
  have hp : strtolPrefix16 (a :: pre ++ c_str rest) = a :: pre ++ c_str rest := by
    cases hpre2 : pre with
    | nil =>
      cases hcr : c_str rest with
      | nil => rfl
      | cons x tl =>
        obtain ⟨-, hx, hX⟩ := hr x (by rw [hcr]; rfl)
        cases tl with
        | nil => rfl
        | cons h tl2 => simp [strtolPrefix16, hx, hX]
    | cons x tl =>
      obtain ⟨dx, hdx⟩ := Option.isSome_iff_exists.mp
        (hpre x (by rw [hpre2]; exact List.mem_cons_of_mem _ (List.mem_cons_self _ _)))
      obtain ⟨-, -, -, -, hx, hX, -⟩ := hex_not_special x dx hdx
      cases htl : tl ++ c_str rest with
      | nil => simp [strtolPrefix16, htl]
      | cons h tl2 => simp [strtolPrefix16, htl, hx, hX]
  unfold strtol16
  rw [hc, hdw, hs]
  simp only [hp]
  rw [strtolDigits_append (c_str rest) (fun c h => (hr c h).1) (a :: pre) 0 hpre]
  simp

theorem strtol16_no_digits (c : Char) (rest : List Char) (hc : hexDigitVal c = none)
    (hs : isspace c = false) (hm : c ≠ '-') (hp : c ≠ '+') : strtol16 (c :: rest) = 0 := by
  unfold strtol16 c_str
  rw [List.takeWhile_cons]
  by_cases h0 : (c != Char.ofNat 0) = true
  · rw [if_pos h0]
    have hz : c ≠ '0' := by
      intro e
      rw [e] at hc
      revert hc
      decide
    have hpre : ∀ l : List Char, strtolPrefix16 (c :: l) = c :: l := by
      intro l
      cases l with
      | nil => rfl
      | cons x tl =>
        cases tl with
        | nil => rfl
        | cons h tl2 => simp [strtolPrefix16, hz]
    simp [List.dropWhile, hs, strtolSign, hm, hp, hpre, strtolDigits, hc]
  · rw [if_neg h0]
    rfl

theorem addColor_rejected (self : RenderColorScheme) (colorKey : RenderColor) (key : String)
    (colors : List (String × String)) (s : String)
    (hc : self.pt.colors = .ok colors) (hk : getString colors key = .ok s)
    (hrej : ¬ (s.length = 7 ∧ s.data.head? = some '#')) :
    RenderColorScheme.addColor self colorKey key =
      .error (.invalid_argument (RenderColorScheme.invalidColorMessage key s)) := by
  unfold RenderColorScheme.addColor
  simp only [hc, hk, hrej, if_false]

/-- C17: for a colour string `s` found under the key, `addColor` throws if and
only if the length of `s` is not 7 or its first character is not `#`, and what
it throws is `invalid_argument`; for an accepted `s` it inserts the colour with
channels (v >> 16) & 255, (v >> 8) & 255, v & 255 and alpha 255, where v is the
value that `strtol` in base 16 gives for the six characters after `#`: each
channel lies in 0..255, v is the value of the leading run of hexadecimal digits
when the six characters start with one that is not followed by `x` or `X`, and
v is 0 when they start with a character that is neither a digit, white space
nor a sign. -/
theorem addColor_acceptance (self : RenderColorScheme) (colorKey : RenderColor) (key : String)
    (colors : List (String × String)) (s : String)
    (hc : self.pt.colors = .ok colors) (hk : getString colors key = .ok s) :
    ((∃ e, RenderColorScheme.addColor self colorKey key = .error e) ↔
      (s.length ≠ 7 ∨ s.data.head? ≠ some '#')) ∧
    (∀ e, RenderColorScheme.addColor self colorKey key = .error e →
      e = .invalid_argument (RenderColorScheme.invalidColorMessage key s)) ∧
    (s.length = 7 ∧ s.data.head? = some '#' →
      RenderColorScheme.addColor self colorKey key =
        .ok { self with _color_scheme := (self._color_scheme.insert colorKey
          ⟨strtol16 (s.data.drop 1) / 65536 % 256, strtol16 (s.data.drop 1) / 256 % 256,
           strtol16 (s.data.drop 1) % 256, 255⟩) } ∧
      0 ≤ strtol16 (s.data.drop 1) / 65536 % 256 ∧ strtol16 (s.data.drop 1) / 65536 % 256 ≤ 255 ∧
      0 ≤ strtol16 (s.data.drop 1) / 256 % 256 ∧ strtol16 (s.data.drop 1) / 256 % 256 ≤ 255 ∧
      0 ≤ strtol16 (s.data.drop 1) % 256 ∧ strtol16 (s.data.drop 1) % 256 ≤ 255) ∧
    (∀ (a : Char) (pre rest : List Char), s.data.drop 1 = a :: pre ++ rest →
      (∀ c ∈ a :: pre, (hexDigitVal c).isSome = true) →
      (∀ c, rest.head? = some c → hexDigitVal c = none ∧ c ≠ 'x' ∧ c ≠ 'X') →
      strtol16 (s.data.drop 1) = (strtolDigits 0 (a :: pre) : Nat)) ∧
    (∀ (c : Char) (rest : List Char), s.data.drop 1 = c :: rest → hexDigitVal c = none →
      isspace c = false → c ≠ '-' → c ≠ '+' → strtol16 (s.data.drop 1) = 0) := by
  refine ⟨?_, ?_, ?_, ?_, ?_⟩
  · constructor
    · rintro ⟨e, he⟩
      by_contra hcon
      have hacc : s.length = 7 ∧ s.data.head? = some '#' := by
        constructor
        · by_contra h1; exact hcon (Or.inl h1)
        · by_contra h2; exact hcon (Or.inr h2)
      rw [addColor_ok_of_accepted self colorKey key colors s hc hk hacc.1 hacc.2] at he
      cases he
    · intro h
      refine ⟨_, addColor_rejected self colorKey key colors s hc hk ?_⟩
      rintro ⟨h1, h2⟩
      rcases h with h | h
      · exact h h1
      · exact h h2
  · intro e he
    by_cases hacc : s.length = 7 ∧ s.data.head? = some '#'
    · rw [addColor_ok_of_accepted self colorKey key colors s hc hk hacc.1 hacc.2] at he
      cases he
    · rw [addColor_rejected self colorKey key colors s hc hk hacc] at he
      cases he
      rfl
  · rintro ⟨h1, h2⟩
    refine ⟨?_, by omega, by omega, by omega, by omega, by omega, by omega⟩
    rw [addColor_ok_of_accepted self colorKey key colors s hc hk h1 h2]
    obtain ⟨e1, e2, e3⟩ := channels_of_strtol (strtol16 (s.data.drop 1))
    simp only [keyColor, getString_lookup colors key s hk, parsedColor, Color4f.rgb]
    rw [e1, e2, e3]
  · intro a pre rest hs hpre hrest
    rw [hs]
    exact strtol16_hex_run a pre rest hpre hrest
  · intro c rest hs hcn hsp hm hp
    rw [hs]
    exact strtol16_no_digits c rest hcn hsp hm hp

/-- Witness of C17: the value "123456" is rejected; the value "#12gh  " is
accepted and read as 0x12; the value "#ZZZZZZ" is accepted and read as 0. -/
theorem addColor_acceptance_witness :
    ((∃ e, RenderColorScheme.addColor (sampleScheme (sampleTree "A" 1 true "123456" "#000000"))
        BACKGROUND_COLOR "background" = .error e) ↔
      ("123456".length ≠ 7 ∨ "123456".data.head? ≠ some '#')) ∧
    strtol16 ("#12gh  ".data.drop 1) = (strtolDigits 0 ['1', '2'] : Nat) ∧
    strtol16 ("#ZZZZZZ".data.drop 1) = 0 :=
  ⟨(addColor_acceptance (sampleScheme (sampleTree "A" 1 true "123456" "#000000"))
      BACKGROUND_COLOR "background" (sampleColors "123456" "#000000") "123456" rfl rfl).1,
   (addColor_acceptance (sampleScheme (sampleTree "A" 1 true "#12gh  " "#000000"))
      BACKGROUND_COLOR "background" (sampleColors "#12gh  " "#000000") "#12gh  " rfl rfl).2.2.2.1
      '1' ['2'] ['g', 'h', ' ', ' '] rfl (by decide) (by decide),
   (addColor_acceptance (sampleScheme (sampleTree "A" 1 true "#ZZZZZZ" "#000000"))
      BACKGROUND_COLOR "background" (sampleColors "#ZZZZZZ" "#000000") "#ZZZZZZ" rfl rfl).2.2.2.2
      'Z' ['Z', 'Z', 'Z', 'Z', 'Z'] rfl (by decide) (by decide) (by decide) (by decide)⟩

/-! ## The registry build -/

theorem insertAll_append (a b : List RenderColorScheme) (s : colorscheme_set_t) :
    insertAll (a ++ b) s = insertAll b (insertAll a s) := by
  unfold insertAll
  rw [List.foldl_append]

theorem enumerateEntry_empty (rs : colorscheme_set_t) (e : DirEntry) :
    ColorMap.enumerateEntry ⟨[]⟩ rs e =
      insertAll ((((if e.is_regular_file && e.extension == ".json" then [e] else []).map
        (fun e => RenderColorScheme.fromPath e.path e.json)).filter (fun s => s.valid))) rs := by
  unfold ColorMap.enumerateEntry
  cases hr : e.is_regular_file
  · rfl
  · cases hx : (e.extension == ".json")
    · rfl
    · cases hv : (RenderColorScheme.fromPath e.path e.json).valid
      · simp [insertAll, hv]
      · simp [insertAll, hv, ColorMap.findColorScheme]

theorem foldl_enumerateEntry_empty (entries : List DirEntry) :
    ∀ rs : colorscheme_set_t, entries.foldl (ColorMap.enumerateEntry ⟨[]⟩) rs =
      insertAll (((entries.filter (fun e => e.is_regular_file && e.extension == ".json")).map
        (fun e => RenderColorScheme.fromPath e.path e.json)).filter (fun s => s.valid)) rs := by
  induction entries with
  | nil => intro rs; rfl
  | cons e rest ih =>
    intro rs
    rw [List.foldl_cons, ih, enumerateEntry_empty, ← insertAll_append]
    congr 1
    cases h : (e.is_regular_file && e.extension == ".json")
    · simp [List.filter_cons, h]
    · cases hv : (RenderColorScheme.fromPath e.path e.json).valid <;>
        simp [List.filter_cons, h, hv]

theorem enumerateColorSchemesInPath_empty (rs : colorscheme_set_t) (d : Directory) :
    ColorMap.enumerateColorSchemesInPath ⟨[]⟩ rs d =
      insertAll ((scanned d).filter (fun s => s.valid)) rs := by
  unfold ColorMap.enumerateColorSchemesInPath scanned
  cases h : (d.present && d.is_directory)
  · rfl
  · simp only [if_true]
    exact foldl_enumerateEntry_empty d.entries rs

theorem new_colorSchemeSet (platform : PlatformUtils) :
    (ColorMap.new platform).colorSchemeSet = insertAll (insertionSequence platform) [] := by
  unfold ColorMap.new ColorMap.enumerateColorSchemes insertionSequence
  simp only [enumerateColorSchemesInPath_empty, List.filter_append]
  rw [← insertAll_append]
  rfl

theorem insert_perm (k : Int) (v : RenderColorScheme) :
    ∀ s : colorscheme_set_t, (colorscheme_set_t.insert k v s).Perm ((k, v) :: s) := by
  intro s
  induction s with
  | nil => exact List.Perm.refl _
  | cons x rest ih =>
    obtain ⟨k1, v1⟩ := x
    unfold colorscheme_set_t.insert
    by_cases h : k < k1
    · rw [if_pos h]
    · rw [if_neg h]
      exact (List.Perm.cons _ ih).trans (List.Perm.swap _ _ _)

theorem mem_insert (k : Int) (v : RenderColorScheme) (s : colorscheme_set_t)
    (x : Int × RenderColorScheme) :
    x ∈ colorscheme_set_t.insert k v s ↔ x = (k, v) ∨ x ∈ s := by
  rw [(insert_perm k v s).mem_iff, List.mem_cons]

theorem insert_sorted (k : Int) (v : RenderColorScheme) :
    ∀ s : colorscheme_set_t, s.Pairwise (fun a b => a.1 ≤ b.1) →
      (colorscheme_set_t.insert k v s).Pairwise (fun a b => a.1 ≤ b.1) := by
  intro s
  induction s with
  | nil => intro _; exact List.pairwise_singleton _ _
  | cons x rest ih =>
    intro hs
    obtain ⟨k1, v1⟩ := x
    rw [List.pairwise_cons] at hs
    unfold colorscheme_set_t.insert
    by_cases h : k < k1
    · rw [if_pos h, List.pairwise_cons]
      refine ⟨?_, List.pairwise_cons.mpr hs⟩
      intro y hy
      rcases List.mem_cons.mp hy with e | hmem
      · subst e; exact le_of_lt h
      · exact le_trans (le_of_lt h) (hs.1 y hmem)
    · rw [if_neg h, List.pairwise_cons]
      refine ⟨?_, ih hs.2⟩
      intro y hy
      rcases (mem_insert k v rest y).mp hy with e | hmem
      · subst e; exact not_lt.mp h
      · exact hs.1 y hmem

theorem insert_filter (k : Int) (v : RenderColorScheme) (j : Int) :
    ∀ s : colorscheme_set_t, s.Pairwise (fun a b => a.1 ≤ b.1) →
      (colorscheme_set_t.insert k v s).filter (fun it => it.1 == j) =
        s.filter (fun it => it.1 == j) ++ (if k = j then [(k, v)] else []) := by
  intro s
  induction s with
  | nil =>
    intro _
    by_cases hkj : k = j <;> simp [colorscheme_set_t.insert, List.filter_cons, hkj]
  | cons x rest ih =>
    intro hs
    obtain ⟨k1, v1⟩ := x
    rw [List.pairwise_cons] at hs
    unfold colorscheme_set_t.insert
    by_cases h : k < k1
    · rw [if_pos h]
      by_cases hkj : k = j
      · subst hkj
        have hnone : ((k1, v1) :: rest).filter (fun it => it.1 == k) = [] := by
          rw [List.filter_eq_nil_iff]
          intro y hy
          have hle : k1 ≤ y.1 := by
            rcases List.mem_cons.mp hy with e | hmem
            · subst e; exact le_refl _
            · exact hs.1 y hmem
          have : y.1 ≠ k := by omega
          simpa using this
        rw [List.filter_cons, hnone]
        simp
      · rw [List.filter_cons]
        simp [hkj]
    · rw [if_neg h, List.filter_cons, List.filter_cons, ih hs.2]
      by_cases h1 : (k1 == j) = true
      · simp only [h1, if_true, List.cons_append]
      · simp [h1]

theorem insertAll_perm (seq : List RenderColorScheme) :
    ∀ s : colorscheme_set_t,
      (insertAll seq s).Perm (s ++ seq.map (fun v => (v.index, v))) := by
  induction seq with
  | nil => intro s; simp [insertAll]
  | cons v rest ih =>
    intro s
    have h1 : insertAll (v :: rest) s = insertAll rest (colorscheme_set_t.insert v.index v s) :=
      rfl
    rw [h1]
    refine (ih _).trans ?_
    rw [List.map_cons]
    refine ((insert_perm v.index v s).append_right _).trans ?_
    rw [List.cons_append]
    exact List.perm_middle.symm

theorem insertAll_sorted (seq : List RenderColorScheme) :
    ∀ s : colorscheme_set_t, s.Pairwise (fun a b => a.1 ≤ b.1) →
      (insertAll seq s).Pairwise (fun a b => a.1 ≤ b.1) := by
  induction seq with
  | nil => intro s hs; exact hs
  | cons v rest ih =>
    intro s hs
    exact ih _ (insert_sorted v.index v s hs)

theorem insertAll_filter (j : Int) (seq : List RenderColorScheme) :
    ∀ s : colorscheme_set_t, s.Pairwise (fun a b => a.1 ≤ b.1) →
      (insertAll seq s).filter (fun it => it.1 == j) =
        s.filter (fun it => it.1 == j) ++
          (seq.filter (fun v => v.index == j)).map (fun v => (v.index, v)) := by
  induction seq with
  | nil => intro s _; simp [insertAll]
  | cons v rest ih =>
    intro s hs
    have h1 : insertAll (v :: rest) s = insertAll rest (colorscheme_set_t.insert v.index v s) :=
      rfl
    rw [h1, ih _ (insert_sorted v.index v s hs), insert_filter v.index v j s hs,
      List.filter_cons]
    by_cases hkj : v.index = j
    · simp [hkj]
    · simp [hkj]

theorem mem_insertAll_nil (seq : List RenderColorScheme) (x : Int × RenderColorScheme) :
    x ∈ insertAll seq [] ↔ ∃ v ∈ seq, x = (v.index, v) := by
  rw [(insertAll_perm seq []).mem_iff, List.nil_append, List.mem_map]
  constructor
  · rintro ⟨v, hv, e⟩
    exact ⟨v, hv, e.symm⟩
  · rintro ⟨v, hv, e⟩
    exact ⟨v, hv, e.symm⟩

theorem insertAll_map_snd (seq : List RenderColorScheme) :
    ((insertAll seq []).map Prod.snd).Perm seq := by
  have h := (insertAll_perm seq []).map Prod.snd
  rw [List.nil_append, List.map_map] at h
  have e : (Prod.snd ∘ fun v : RenderColorScheme => (v.index, v)) = id := rfl
  rw [e, List.map_id] at h
  exact h

theorem key_eq_index (platform : PlatformUtils) :
    ∀ it ∈ (ColorMap.new platform).colorSchemeSet, it.1 = it.2.index := by
  intro it hit
  rw [new_colorSchemeSet, mem_insertAll_nil] at hit
  obtain ⟨v, -, e⟩ := hit
  rw [e]

/-- C10: for the registry built from any pair of scheme directories,
`colorSchemeNames(false)` is the list of the names of all retained schemes in
the order of the collection; in that order the indices are non-decreasing; the
retained schemes are the schemes of the insertion sequence (the built-in
default, then the valid discovered schemes in scan order), and the schemes of
any one index appear in the order in which that sequence has them. The listing
is a function of the directories alone. -/
theorem listing_order (platform : PlatformUtils) :
    (ColorMap.new platform).colorSchemeNames false =
      (ColorMap.new platform).colorSchemeSet.map (fun it => it.2.name) ∧
    (ColorMap.new platform).colorSchemeSet.Pairwise (fun a b => a.2.index ≤ b.2.index) ∧
    ((ColorMap.new platform).colorSchemeSet.map Prod.snd).Perm (insertionSequence platform) ∧
    (∀ j : Int,
      ((ColorMap.new platform).colorSchemeSet.map Prod.snd).filter (fun v => v.index == j) =
        (insertionSequence platform).filter (fun v => v.index == j)) := by
  refine ⟨?_, ?_, ?_, ?_⟩
  · unfold ColorMap.colorSchemeNames
    simp
  · have hs : (ColorMap.new platform).colorSchemeSet.Pairwise (fun a b => a.1 ≤ b.1) := by
      rw [new_colorSchemeSet]
      exact insertAll_sorted _ [] List.Pairwise.nil
    refine List.Pairwise.imp_of_mem ?_ hs
    intro a b ha hb hab
    rw [← key_eq_index platform a ha, ← key_eq_index platform b hb]
    exact hab
  · rw [new_colorSchemeSet]
    exact insertAll_map_snd _
  · intro j
    have hf : (ColorMap.new platform).colorSchemeSet.filter (fun it => it.2.index == j) =
        (ColorMap.new platform).colorSchemeSet.filter (fun it => it.1 == j) := by
      apply List.filter_congr
      intro it hit
      rw [key_eq_index platform it hit]
    rw [List.filter_map]
    have hc : ((fun v : RenderColorScheme => v.index == j) ∘ Prod.snd) =
        (fun it : Int × RenderColorScheme => it.2.index == j) := rfl
    rw [hc, hf, new_colorSchemeSet, insertAll_filter j _ [] List.Pairwise.nil]
    simp [Function.comp_def]

theorem fromPath_valid_inv (path : String) (json : Except StdException PTree)
    (hv : (RenderColorScheme.fromPath path json).valid = true) :
    ∃ tree n i g colors, json = .ok tree ∧ tree.name = .ok n ∧ n ≠ "" ∧
      (∀ p ∈ RenderColorScheme.colorKeys, ∃ color, getString colors p.2 = .ok color ∧
        color.length = 7 ∧ color.data.head? = some '#') ∧
      RenderColorScheme.fromPath path json =
        ⟨path, tree, n, i, g,
          RenderColorScheme.colorKeys.map (fun p => (p.1, keyColor colors p.2))⟩ := by
  by_cases hnone : (RenderColorScheme.tryBlock json (RenderColorScheme.initial path)).2 = none
  · rcases ht : RenderColorScheme.tryBlock json (RenderColorScheme.initial path) with ⟨s, r⟩
    rw [ht] at hnone
    simp only at hnone
    subst hnone
    obtain ⟨tree, n, i, g, colors, hj, hn, hi, hg, hc, hall⟩ := tryBlock_none_inv json _ s ht
    subst hj
    have hfrom := fromPath_ok path tree n i g colors hn hi hg hc hall
    refine ⟨tree, n, i, g, colors, rfl, hn, ?_, hall, hfrom⟩
    rw [hfrom] at hv
    exact (valid_iff_name _).mp hv
  · have := (fromPath_failed path json hnone).2.2.2
    rw [this] at hv
    cases hv

theorem mem_insertionSequence (platform : PlatformUtils) (v : RenderColorScheme)
    (hv : v ∈ insertionSequence platform) :
    v = RenderColorScheme.builtIn ∨
      (v.valid = true ∧ ∃ e : DirEntry, v = RenderColorScheme.fromPath e.path e.json) := by
  unfold insertionSequence at hv
  rcases List.mem_cons.mp hv with e | hmem
  · exact Or.inl e
  · right
    rw [List.mem_filter] at hmem
    refine ⟨hmem.2, ?_⟩
    have hsc : ∀ d : Directory, v ∈ scanned d →
        ∃ e : DirEntry, v = RenderColorScheme.fromPath e.path e.json := by
      intro d hd
      unfold scanned at hd
      by_cases hdir : (d.present && d.is_directory) = true
      · rw [if_pos hdir, List.mem_map] at hd
        obtain ⟨e, -, he⟩ := hd
        exact ⟨e, he.symm⟩
      · rw [if_neg hdir] at hd
        cases hd
    rcases List.mem_append.mp hmem.1 with h | h
    · exact hsc _ h
    · exact hsc _ h

theorem retained_valid (platform : PlatformUtils) :
    ∀ it ∈ (ColorMap.new platform).colorSchemeSet, it.2.valid = true := by
  intro it hit
  rw [new_colorSchemeSet, mem_insertAll_nil] at hit
  obtain ⟨v, hv, e⟩ := hit
  rw [e]
  rcases mem_insertionSequence platform v hv with h | h
  · rw [h]; rfl
  · exact h.1

theorem builtIn_retained (platform : PlatformUtils) :
    ((1000 : Int), RenderColorScheme.builtIn) ∈ (ColorMap.new platform).colorSchemeSet := by
  rw [new_colorSchemeSet, mem_insertAll_nil]
  exact ⟨RenderColorScheme.builtIn, List.mem_cons_self _ _, rfl⟩

/-- C12: for every pair of scheme directories, the lookup of "Cornfield" in
the built registry finds a scheme: `defaultColorScheme()` dereferences a
non-null pointer, to the mapping of a retained scheme that is named
"Cornfield" and is valid. -/
theorem default_always_present (platform : PlatformUtils) :
    ∃ it, it ∈ (ColorMap.new platform).colorSchemeSet ∧ it.2.name = "Cornfield" ∧
      it.2.valid = true ∧
      (ColorMap.new platform).findColorScheme "Cornfield" = some it.2.colorScheme ∧
      (ColorMap.new platform).defaultColorScheme = some it.2.colorScheme := by
  have hsome : ((ColorMap.new platform).colorSchemeSet.find?
      (fun it => "Cornfield" == it.2.name)).isSome = true := by
    rw [List.find?_isSome]
    exact ⟨_, builtIn_retained platform, by decide⟩
  obtain ⟨it, hit⟩ := Option.isSome_iff_exists.mp hsome
  have hmem := List.mem_of_find?_eq_some hit
  have hname := List.find?_some hit
  have hfind : (ColorMap.new platform).findColorScheme "Cornfield" = some it.2.colorScheme := by
    unfold ColorMap.findColorScheme
    rw [hit]
  refine ⟨it, hmem, ?_, retained_valid platform it hmem, hfind, hfind⟩
  have hn : "Cornfield" = it.2.name := by simpa using hname
  exact hn.symm

theorem find_first (p : Int × RenderColorScheme → Bool) :
    ∀ (pre : List (Int × RenderColorScheme)) (it : Int × RenderColorScheme)
      (post : List (Int × RenderColorScheme)),
      (∀ x ∈ pre, p x = false) → p it = true → (pre ++ it :: post).find? p = some it := by
  intro pre
  induction pre with
  | nil => intro it post _ hit; exact List.find?_cons_of_pos _ hit
  | cons a rest ih =>
    intro it post hpre hit
    rw [List.cons_append, List.find?_cons_of_neg _ (by simp [hpre a (List.mem_cons_self _ _)])]
    exact ih it post (fun x hx => hpre x (List.mem_cons_of_mem _ hx)) hit

theorem find_split (p : Int × RenderColorScheme → Bool) :
    ∀ (l : List (Int × RenderColorScheme)) (it : Int × RenderColorScheme),
      l.find? p = some it →
      ∃ pre post, l = pre ++ it :: post ∧ (∀ x ∈ pre, p x = false) ∧ p it = true := by
  intro l
  induction l with
  | nil => intro it h; cases h
  | cons a rest ih =>
    intro it h
    by_cases ha : p a = true
    · rw [List.find?_cons_of_pos _ ha] at h
      cases h
      exact ⟨[], rest, rfl, fun x hx => (by cases hx), ha⟩
    · rw [List.find?_cons_of_neg _ ha] at h
      obtain ⟨pre, post, e, hpre, hit⟩ := ih it h
      refine ⟨a :: pre, post, by rw [e]; rfl, ?_, hit⟩
      intro x hx
      rcases List.mem_cons.mp hx with e1 | hmem
      · subst e1; simpa using ha
      · exact hpre x hmem

/-- C13: for every registry and every string `n`, `findColorScheme(n)` is null
if and only if no scheme of the collection has the name `n`; it returns the
mapping of the scheme `it` whenever `it` has exactly the name `n` and no scheme
before `it` in the order of the collection has; and every mapping it returns
is that of such a first scheme. The comparison is exact: "cornfield" is not
found in a registry that holds only "Cornfield". -/
theorem findColorScheme_first_match (m : ColorMap) (n : String) :
    (m.findColorScheme n = none ↔ ∀ it ∈ m.colorSchemeSet, it.2.name ≠ n) ∧
    (∀ pre it post, m.colorSchemeSet = pre ++ it :: post → (∀ x ∈ pre, x.2.name ≠ n) →
      it.2.name = n → m.findColorScheme n = some it.2.colorScheme) ∧
    (∀ cs, m.findColorScheme n = some cs →
      ∃ pre it post, m.colorSchemeSet = pre ++ it :: post ∧ (∀ x ∈ pre, x.2.name ≠ n) ∧
        it.2.name = n ∧ cs = it.2.colorScheme) ∧
    (ColorMap.new (samplePlatform [])).findColorScheme "cornfield" = none ∧
    ((ColorMap.new (samplePlatform [])).findColorScheme "Cornfield").isSome = true := by
  refine ⟨?_, ?_, ?_, by decide, by decide⟩
  · unfold ColorMap.findColorScheme
    cases hf : m.colorSchemeSet.find? (fun it => n == it.2.name) with
    | none =>
      simp only [true_iff]
      intro it hit e
      have := List.find?_eq_none.mp hf it hit
      exact this (by simp [e])
    | some x =>
      simp only [false_iff, reduceCtorEq]
      intro hall
      have hx := List.find?_some hf
      have hn : n = x.2.name := by simpa using hx
      exact hall x (List.mem_of_find?_eq_some hf) hn.symm
  · intro pre it post hset hpre hit
    unfold ColorMap.findColorScheme
    rw [hset, find_first _ pre it post (fun x hx => by simpa using fun e => hpre x hx e.symm)
      (by simp [hit])]
  · intro cs hcs
    unfold ColorMap.findColorScheme at hcs
    cases hf : m.colorSchemeSet.find? (fun it => n == it.2.name) with
    | none => rw [hf] at hcs; cases hcs
    | some x =>
      rw [hf] at hcs
      cases hcs
      obtain ⟨pre, post, e, hpre, hit⟩ := find_split _ _ x hf
      refine ⟨pre, x, post, e, ?_, ?_, rfl⟩
      · intro y hy e2
        have := hpre y hy
        simp [e2] at this
      · have hn : n = x.2.name := by simpa using hit
        exact hn.symm

theorem fromPath_empty_name (path : String) (tree : PTree) (h : tree.name = .ok "") :
    (RenderColorScheme.fromPath path (.ok tree)).valid = false := by
  cases hv : (RenderColorScheme.fromPath path (.ok tree)).valid with
  | false => rfl
  | true =>
    obtain ⟨tree2, n, i, g, colors, hj, hn, hne, -, -⟩ := fromPath_valid_inv path _ hv
    cases hj
    rw [h] at hn
    cases hn
    exact absurd rfl hne

/-- C16: every scheme of the built registry is valid, so every name that
`colorSchemeNames(false)` returns is non-empty; and a source that is read
successfully but declares the name "" gives an invalid scheme, which the scan
discards, leaving the collection as it was. -/
theorem only_valid_retained (platform : PlatformUtils) :
    (∀ it ∈ (ColorMap.new platform).colorSchemeSet, it.2.valid = true) ∧
    (∀ n ∈ (ColorMap.new platform).colorSchemeNames false, n ≠ "") ∧
    (∀ (self : ColorMap) (rs : colorscheme_set_t) (e : DirEntry) (tree : PTree),
      e.json = .ok tree → tree.name = .ok "" →
      (RenderColorScheme.fromPath e.path e.json).valid = false ∧
      self.enumerateEntry rs e = rs) := by
  refine ⟨retained_valid platform, ?_, ?_⟩
  · intro n hn
    unfold ColorMap.colorSchemeNames at hn
    rw [List.mem_map] at hn
    obtain ⟨it, hit, e⟩ := hn
    rw [← e]
    exact (valid_iff_name _).mp (retained_valid platform it (List.mem_of_mem_filter hit))
  · intro self rs e tree hj hn
    have hv : (RenderColorScheme.fromPath e.path e.json).valid = false := by
      rw [hj]
      exact fromPath_empty_name e.path tree hn
    refine ⟨hv, ?_⟩
    unfold ColorMap.enumerateEntry
    simp [hv]

theorem scanned_filter_nil (d : Directory)
    (h : ¬ (d.present = true ∧ d.is_directory = true) ∨
      ∀ e ∈ d.entries, e.is_regular_file = true → e.extension = ".json" →
        (RenderColorScheme.fromPath e.path e.json).valid = false) :
    (scanned d).filter (fun s => s.valid) = [] := by
  unfold scanned
  by_cases hdir : (d.present && d.is_directory) = true
  · rw [if_pos hdir]
    rcases h with h | h
    · exact absurd (by simpa using hdir) h
    · rw [List.filter_eq_nil_iff]
      intro s hs
      rw [List.mem_map] at hs
      obtain ⟨e, he, rfl⟩ := hs
      rw [List.mem_filter] at he
      have hre : e.is_regular_file = true ∧ e.extension = ".json" := by simpa using he.2
      rw [h e he.1 hre.1 hre.2]
      simp
  · rw [if_neg hdir]
    rfl

/-- C14: when each of the two scheme directories is missing, is not a
directory, or holds no regular `.json` file from which a valid scheme is
constructed (in particular when it is empty), the built registry holds exactly
the built-in default: `colorSchemeNames(false)` is ["Cornfield"], the default
mapping is the built-in one, and that mapping has the ten roles. -/
theorem empty_configuration_default_only (platform : PlatformUtils)
    (hres : ¬ (platform.resourcesPath.present = true ∧
        platform.resourcesPath.is_directory = true) ∨
      ∀ e ∈ platform.resourcesPath.entries, e.is_regular_file = true →
        e.extension = ".json" → (RenderColorScheme.fromPath e.path e.json).valid = false)
    (huser : ¬ (platform.userConfigPath.present = true ∧
        platform.userConfigPath.is_directory = true) ∨
      ∀ e ∈ platform.userConfigPath.entries, e.is_regular_file = true →
        e.extension = ".json" → (RenderColorScheme.fromPath e.path e.json).valid = false) :
    (ColorMap.new platform).colorSchemeSet = [(1000, RenderColorScheme.builtIn)] ∧
    (ColorMap.new platform).colorSchemeNames false = ["Cornfield"] ∧
    (ColorMap.new platform).colorSchemeNames true = ["Cornfield"] ∧
    (ColorMap.new platform).defaultColorScheme = some RenderColorScheme.builtIn.colorScheme ∧
    RenderColorScheme.builtIn.colorScheme.map Prod.fst =
      RenderColorScheme.colorKeys.map Prod.fst := by
  have hseq : insertionSequence platform = [RenderColorScheme.builtIn] := by
    unfold insertionSequence
    rw [List.filter_append, scanned_filter_nil _ hres, scanned_filter_nil _ huser]
    rfl
  have hset : (ColorMap.new platform).colorSchemeSet = [(1000, RenderColorScheme.builtIn)] := by
    rw [new_colorSchemeSet, hseq]
    rfl
  refine ⟨hset, ?_, ?_, ?_, by decide⟩
  · unfold ColorMap.colorSchemeNames
    rw [hset]
    rfl
  · unfold ColorMap.colorSchemeNames
    rw [hset]
    rfl
  · unfold ColorMap.defaultColorScheme ColorMap.findColorScheme
    rw [hset]
    rfl

/-- Witness of C14: the resources directory holds a sub-directory, a text
file, an unreadable `.json` file and a `.json` file with a rejected colour;
the user directory is missing. -/
theorem empty_configuration_default_only_witness :
    (ColorMap.new (samplePlatform [⟨"d.json", false, ".json", .error .json_parser_error⟩,
        ⟨"notes.txt", true, ".txt", .error .json_parser_error⟩,
        ⟨"broken.json", true, ".json", .error .json_parser_error⟩,
        sampleEntry "B" 3 true "#11223" "#000000"])).colorSchemeNames false = ["Cornfield"] :=
  (empty_configuration_default_only
    (samplePlatform [⟨"d.json", false, ".json", .error .json_parser_error⟩,
        ⟨"notes.txt", true, ".txt", .error .json_parser_error⟩,
        ⟨"broken.json", true, ".json", .error .json_parser_error⟩,
        sampleEntry "B" 3 true "#11223" "#000000"])
    (Or.inr (by
      intro e he
      simp only [samplePlatform, List.mem_cons, List.mem_singleton, List.not_mem_nil,
        or_false] at he
      rcases he with h | h | h | h <;> subst h <;> decide))
    (Or.inl (by decide))).2.1

theorem scanned_filter_valid_entries (d : Directory) :
    (scanned { d with entries :=
        (d.entries.filter (fun e => (RenderColorScheme.fromPath e.path e.json).valid)) }).filter
        (fun s => s.valid) =
      (scanned d).filter (fun s => s.valid) := by
  unfold scanned
  by_cases hdir : (d.present && d.is_directory) = true
  · simp only [hdir, if_true]
    induction d.entries with
    | nil => rfl
    | cons e rest ih =>
      cases hv : (RenderColorScheme.fromPath e.path e.json).valid <;>
        cases hr : (e.is_regular_file && e.extension == ".json") <;>
        simp [List.filter_cons, hv, hr] <;> simpa using ih
  · simp only [hdir]
    rfl

theorem mem_scanned (d : Directory) (e : DirEntry) (hp : d.present = true)
    (hd : d.is_directory = true) (he : e ∈ d.entries) (hr : e.is_regular_file = true)
    (hx : e.extension = ".json") :
    RenderColorScheme.fromPath e.path e.json ∈ scanned d := by
  unfold scanned
  simp only [hp, hd, Bool.and_self, if_true]
  rw [List.mem_map]
  exact ⟨e, List.mem_filter.mpr ⟨he, by simp [hr, hx]⟩, rfl⟩

/-- C15: the registry built from two scheme directories is equal to the
registry built from the same directories with every entry removed whose
scheme is invalid; and every regular `.json` file of a scanned directory whose
scheme is valid is retained under its index, whatever the other entries of
the directories are. -/
theorem failing_sources_do_not_disturb (platform : PlatformUtils) :
    ColorMap.new platform =
      ColorMap.new
        ⟨{ platform.resourcesPath with entries := (platform.resourcesPath.entries.filter
            (fun e => (RenderColorScheme.fromPath e.path e.json).valid)) },
         { platform.userConfigPath with entries := (platform.userConfigPath.entries.filter
            (fun e => (RenderColorScheme.fromPath e.path e.json).valid)) }⟩ ∧
    (∀ d, (d = platform.resourcesPath ∨ d = platform.userConfigPath) →
      d.present = true → d.is_directory = true →
      ∀ e ∈ d.entries, e.is_regular_file = true → e.extension = ".json" →
        (RenderColorScheme.fromPath e.path e.json).valid = true →
        ((RenderColorScheme.fromPath e.path e.json).index,
          RenderColorScheme.fromPath e.path e.json) ∈ (ColorMap.new platform).colorSchemeSet) := by
  constructor
  · have hext : ∀ a b : ColorMap, a.colorSchemeSet = b.colorSchemeSet → a = b := by
      intro a b h
      cases a
      cases b
      simp only at h
      rw [h]
    apply hext
    rw [new_colorSchemeSet, new_colorSchemeSet]
    congr 1
    unfold insertionSequence
    simp only [List.filter_append, scanned_filter_valid_entries]
  · intro d hd hp hdir e he hr hx hv
    rw [new_colorSchemeSet, mem_insertAll_nil]
    refine ⟨_, ?_, rfl⟩
    unfold insertionSequence
    apply List.mem_cons_of_mem
    rw [List.mem_filter]
    refine ⟨?_, hv⟩
    rw [List.mem_append]
    rcases hd with h | h
    · left; rw [← h]; exact mem_scanned d e hp hdir he hr hx
    · right; rw [← h]; exact mem_scanned d e hp hdir he hr hx

theorem lookup_of_mem_keys (k : RenderColor) :
    ∀ cs : ColorScheme, k ∈ cs.map Prod.fst → ∃ c, cs.lookup k = some c := by
  intro cs
  induction cs with
  | nil => intro h; cases h
  | cons x rest ih =>
    intro h
    obtain ⟨k1, v1⟩ := x
    rw [List.lookup_cons]
    cases hb : (k == k1) with
    | true => exact ⟨v1, rfl⟩
    | false =>
      rw [List.map_cons, List.mem_cons] at h
      rcases h with e | hmem
      · rw [e] at hb
        simp at hb
      · exact ih hmem

theorem fromPath_keys (path : String) (json : Except StdException PTree)
    (hv : (RenderColorScheme.fromPath path json).valid = true) :
    (RenderColorScheme.fromPath path json).colorScheme.map Prod.fst =
      RenderColorScheme.colorKeys.map Prod.fst := by
  obtain ⟨tree, n, i, g, colors, -, -, -, -, hfrom⟩ := fromPath_valid_inv path json hv
  rw [hfrom]
  show (RenderColorScheme.colorKeys.map (fun p => (p.1, keyColor colors p.2))).map Prod.fst = _
  rw [List.map_map]
  rfl

theorem retained_keys (platform : PlatformUtils) :
    ∀ it ∈ (ColorMap.new platform).colorSchemeSet,
      it.2.colorScheme.map Prod.fst = RenderColorScheme.colorKeys.map Prod.fst := by
  intro it hit
  rw [new_colorSchemeSet, mem_insertAll_nil] at hit
  obtain ⟨v, hv, e⟩ := hit
  rw [e]
  rcases mem_insertionSequence platform v hv with h | ⟨hvalid, entry, h⟩
  · rw [h]; decide
  · rw [h] at hvalid ⊢
    exact fromPath_keys _ _ hvalid

/-- C18: the mapping of every valid scheme constructed from a source has an
entry for each of the ten roles and for no other role; so has the mapping of
every scheme retained in a built registry, and for such a scheme and each of
the ten roles `getColor` returns the entry of the scheme itself, in every
state and without touching the singleton: it does not consult the default
and does not return the colour (0, 0, 0, 127) for a missing role. -/
theorem retained_fully_populated :
    (∀ (path : String) (json : Except StdException PTree),
      (RenderColorScheme.fromPath path json).valid = true →
      (RenderColorScheme.fromPath path json).colorScheme.map Prod.fst =
        RenderColorScheme.colorKeys.map Prod.fst ∧
      ∀ p ∈ RenderColorScheme.colorKeys,
        ∃ c, (RenderColorScheme.fromPath path json).colorScheme.at p.1 = some c ∧
        ∀ (platform : PlatformUtils) (st : Statics),
          ColorMap.getColor platform (RenderColorScheme.fromPath path json).colorScheme p.1 st =
            (some c, st)) ∧
    (∀ (platform : PlatformUtils), ∀ it ∈ (ColorMap.new platform).colorSchemeSet,
      it.2.colorScheme.map Prod.fst = RenderColorScheme.colorKeys.map Prod.fst ∧
      ∀ p ∈ RenderColorScheme.colorKeys, ∃ c, it.2.colorScheme.at p.1 = some c ∧
        ∀ (platform2 : PlatformUtils) (st : Statics),
          ColorMap.getColor platform2 it.2.colorScheme p.1 st = (some c, st)) := by
  have hget : ∀ cs : ColorScheme,
      cs.map Prod.fst = RenderColorScheme.colorKeys.map Prod.fst →
      ∀ p ∈ RenderColorScheme.colorKeys, ∃ c, cs.at p.1 = some c ∧
        ∀ (platform : PlatformUtils) (st : Statics),
          ColorMap.getColor platform cs p.1 st = (some c, st) := by
    intro cs hk p hp
    obtain ⟨c, hc⟩ := lookup_of_mem_keys p.1 cs
      (by rw [hk]; exact List.mem_map_of_mem Prod.fst hp)
    exact ⟨c, hc, fun platform st => getColor_of_entry platform _ p.1 c st hc⟩
  refine ⟨?_, ?_⟩
  · intro path json hv
    exact ⟨fromPath_keys path json hv, hget _ (fromPath_keys path json hv)⟩
  · intro platform it hit
    exact ⟨retained_keys platform it hit, hget _ (retained_keys platform it hit)⟩

/-- C11, the code at the failing input: two valid sources that both declare
the name "A", the first with index 1 and shown in the GUI, the second with
index 2 and not shown. Both are retained; the name of the hidden scheme is in
the GUI listing, and the lookup of "A" returns the mapping of the first
scheme, not that of the hidden one. -/
theorem hidden_duplicate_at_failing_input :
    (ColorMap.new (samplePlatform [sampleEntry "A" 1 true "#111111" "#000000",
        sampleEntry "A" 2 false "#222222" "#000000"])).colorSchemeSet.map
        (fun it => (it.1, it.2.name, it.2.showInGui, it.2.colorScheme.at BACKGROUND_COLOR)) =
      [(1, "A", true, some ⟨17, 17, 17, 255⟩), (2, "A", false, some ⟨34, 34, 34, 255⟩),
       (1000, "Cornfield", true, some ⟨255, 255, 229, 255⟩)] ∧
    (ColorMap.new (samplePlatform [sampleEntry "A" 1 true "#111111" "#000000",
        sampleEntry "A" 2 false "#222222" "#000000"])).colorSchemeNames false =
      ["A", "A", "Cornfield"] ∧
    (ColorMap.new (samplePlatform [sampleEntry "A" 1 true "#111111" "#000000",
        sampleEntry "A" 2 false "#222222" "#000000"])).colorSchemeNames true =
      ["A", "Cornfield"] ∧
    ((ColorMap.new (samplePlatform [sampleEntry "A" 1 true "#111111" "#000000",
        sampleEntry "A" 2 false "#222222" "#000000"])).findColorScheme "A").bind
        (fun cs => cs.at BACKGROUND_COLOR) = some ⟨17, 17, 17, 255⟩ := by
  decide

end ColorMapModel
